import Mathlib

/-!
Verification of the feed-repository workflow of the sns-project-server
repository (`src/modules/feed/feed.repository.ts`).

The relational store is embedded as an explicit `DB` state holding the row
lists of the tables the feed repository touches.  Each repository method is
translated into a state transformer over `DB`.  Conventions of the embedding:

* `Promise.all` loops and transaction bodies are executed sequentially, in
  source order, over a single evolving state; reads issued through the
  repository handles inside a transaction see the transaction's earlier
  writes.
* TypeScript code that dereferences a possibly-`null`/`undefined` value
  (`findOne` results, optional parameters) is modelled with `Option`: a
  `none` result stands for the thrown `TypeError` and the rolled-back
  transaction.
* JavaScript numeric counters (`likeCount`, `feedCount`) are `Int`, since
  the code decrements them without a lower bound; ids and timestamps are
  `Nat`.
-/

namespace SnsFeed

/-- YN flag enumeration (`src/common`): `Y`/`N` visibility toggles. -/
inductive YN
  | Y
  | N
deriving DecidableEq

/-- Feed status enumeration.  The enum source is not under `src/`; the spec
(§3) lists `ACTIVE`/`DELETED`/etc., and the repository compares against
`FEED_STATUS.ACTIVE` and assigns `FEED_STATUS.DELETED`. -/
inductive FEED_STATUS
  | ACTIVE
  | INACTIVE
  | DELETED
deriving DecidableEq

/-- A row of the `feed` table (`feed.entity.ts`). -/
structure FeedRow where
  id : Nat
  userId : Nat
  description : String
  likeCount : Int
  commentCount : Int
  showLikeCountYn : YN
  displayYn : YN
  status : FEED_STATUS
  createdAt : Nat
  updatedAt : Nat
deriving DecidableEq

/-- The columns of the `user` table that the feed repository reads or
writes: the id, the denormalized `feedCount`, the soft-delete flag and the
derived following-id list. -/
structure UserRow where
  id : Nat
  feedCount : Int
  delYn : YN
  followingIds : List Nat
deriving DecidableEq

/-- A row of the `feed_image` table: belongs to one feed, holds an image
reference and a `sortOrder`. -/
structure FeedImageRow where
  feedId : Nat
  image : String
  sortOrder : Int
deriving DecidableEq

/-- A row of the `feed_like` join table. -/
structure FeedLikeRow where
  userId : Nat
  feedId : Nat
deriving DecidableEq

/-- A row of the `feed_bookmark` join table. -/
structure FeedBookmarkRow where
  userId : Nat
  feedId : Nat
deriving DecidableEq

/-- A row of the `tag` table. -/
structure TagRow where
  id : Nat
  tagName : String
deriving DecidableEq

/-- A row of the `mapper_feed_tag` join table. -/
structure MapperFeedTagRow where
  feedId : Nat
  tagId : Nat
deriving DecidableEq

/-- The database state seen by the feed repository.  `nextFeedId` and
`nextTagId` model the auto-increment id sequences of the `feed` and `tag`
tables. -/
structure DB where
  feeds : List FeedRow
  users : List UserRow
  feedImages : List FeedImageRow
  feedLikes : List FeedLikeRow
  feedBookmarks : List FeedBookmarkRow
  tags : List TagRow
  mappers : List MapperFeedTagRow
  nextFeedId : Nat
  nextTagId : Nat
deriving DecidableEq

/-- One entry of `FeedCreateDto.feedImages`. -/
structure FeedImageDto where
  image : String
  sortOrder : Int
deriving DecidableEq

/-- `FeedCreateDto`: description, image list, tag-name list. -/
structure FeedCreateDto where
  description : String
  feedImages : List FeedImageDto
  tagNames : List String
deriving DecidableEq

/-- `FeedUpdateDto`: description and the tag-name list to reconcile to. -/
structure FeedUpdateDto where
  description : String
  tagNames : List String
deriving DecidableEq

/-- `FeedListDto`: optional tag filter plus 1-based `page` and `limit`.
`tagName` is `Option` because the query parameter may be absent; the DTO
validation layer guarantees `1 ≤ page` (spec §6), which the theorems carry
as a hypothesis since `page` is a `Nat` here. -/
structure FeedListDto where
  tagName : Option String
  page : Nat
  limit : Nat
deriving DecidableEq

-- Row-level queries (TypeORM `findOne` / query-builder `where` clauses).

/-- `feedRepository.findOne({ where: { id } })`. -/
def feedFindOne (s : DB) (feedId : Nat) : Option FeedRow :=
  s.feeds.find? (fun f => decide (f.id = feedId))

/-- `userRepository.findOne({ where: { id } })`. -/
def userFindOne (s : DB) (userId : Nat) : Option UserRow :=
  s.users.find? (fun u => decide (u.id = userId))

/-- `tagRepository.findOne({ where: { tagName } })`. -/
def tagFindOneByName (s : DB) (tagName : String) : Option TagRow :=
  s.tags.find? (fun t => decide (t.tagName = tagName))

/-- `tagRepository.findOne({ where: { id: tagId } })`. -/
def tagFindOneById (s : DB) (tagId : Nat) : Option TagRow :=
  s.tags.find? (fun t => decide (t.id = tagId))

/-- `MapperFeedTag.findOne({ where: { tagId, feedId } })`. -/
def mapperFindOne (s : DB) (feedId tagId : Nat) : Option MapperFeedTagRow :=
  s.mappers.find? (fun m => decide (m.feedId = feedId) && decide (m.tagId = tagId))

-- Save / insert / delete primitives (TypeORM `save`, `insert`, `delete`).

/-- `transaction.save(feed)` on an entity that already has an id: update
every stored row carrying that primary key. -/
def saveFeed (s : DB) (f : FeedRow) : DB :=
  { s with feeds := s.feeds.map (fun g => if g.id = f.id then f else g) }

/-- `transaction.save(user)` on an existing user row. -/
def saveUser (s : DB) (u : UserRow) : DB :=
  { s with users := s.users.map (fun v => if v.id = u.id then u else v) }

/-- `transaction.save(new Tag({tagName}))`: insert a fresh tag row; the
auto-increment sequence assigns `nextTagId` and TypeORM writes the generated
id back into the entity. -/
def insertTag (s : DB) (tagName : String) : TagRow × DB :=
  let t : TagRow := { id := s.nextTagId, tagName := tagName }
  (t, { s with tags := s.tags ++ [t], nextTagId := s.nextTagId + 1 })

/-- `transaction.save(new MapperFeedTag({feedId, tagId}))`. -/
def insertMapper (s : DB) (feedId tagId : Nat) : DB :=
  { s with mappers := s.mappers ++ [{ feedId := feedId, tagId := tagId }] }

/-- Delete-query `from(MapperFeedTag).where('feedId = :feedId')`. -/
def deleteMappersOf (s : DB) (feedId : Nat) : DB :=
  { s with mappers := s.mappers.filter (fun m => !(decide (m.feedId = feedId))) }

/-- Delete-query `from(MapperFeedTag).where(feedId).andWhere(tagId)`. -/
def deleteMapper (s : DB) (feedId tagId : Nat) : DB :=
  { s with mappers :=
      s.mappers.filter (fun m => !(decide (m.feedId = feedId) && decide (m.tagId = tagId))) }

/-- Delete-query `from(FeedImage).where('feedId = :feedId')`. -/
def deleteImagesOf (s : DB) (feedId : Nat) : DB :=
  { s with feedImages := s.feedImages.filter (fun im => !(decide (im.feedId = feedId))) }

/-- Delete-query `from(FeedLike).where('feedId = :feedId')`. -/
def deleteLikesOf (s : DB) (feedId : Nat) : DB :=
  { s with feedLikes := s.feedLikes.filter (fun l => !(decide (l.feedId = feedId))) }

/-- Delete-query `from(FeedBookmark).where('feedId = :feedId')`. -/
def deleteBookmarksOf (s : DB) (feedId : Nat) : DB :=
  { s with feedBookmarks := s.feedBookmarks.filter (fun b => !(decide (b.feedId = feedId))) }

/-- Delete-query `from(Feed).where('id = :id')`. -/
def deleteFeedRow (s : DB) (feedId : Nat) : DB :=
  { s with feeds := s.feeds.filter (fun f => !(decide (f.id = feedId))) }

/-- Delete-query of `deleteLikeFeed`: `from(FeedLike).where(feedId).andWhere(userId)`. -/
def deleteLikeRows (s : DB) (userId feedId : Nat) : DB :=
  { s with feedLikes :=
      s.feedLikes.filter (fun l => !(decide (l.feedId = feedId) && decide (l.userId = userId))) }

-- Hydration helpers (the private methods at the bottom of the repository).

/-- `__get_feed_images`: fetch the image rows of a feed.  The source query
has a `where` on `feedId` and NO `order by`; rows come back in storage
order. -/
def getFeedImages (s : DB) (feedId : Nat) : List FeedImageRow :=
  s.feedImages.filter (fun im => decide (im.feedId = feedId))

/-- `__get_feed_tags`: fetch the mapper rows of a feed, then look each
`tagId` up individually; a dangling `tagId` contributes `none` (the source
collects `null` into the array). -/
def getFeedTags (s : DB) (feedId : Nat) : List (Option TagRow) :=
  (s.mappers.filter (fun m => decide (m.feedId = feedId))).map
    (fun m => tagFindOneById s m.tagId)

/-- `__get_feed_like_by_user`: existence of the (user, feed) like row. -/
def getFeedLikeByUser (s : DB) (userId feedId : Nat) : Bool :=
  s.feedLikes.any (fun l => decide (l.feedId = feedId) && decide (l.userId = userId))

/-- `__get_feed_bookmark_by_user`: existence of the (user, feed) bookmark row. -/
def getFeedBookmarkByUser (s : DB) (userId feedId : Nat) : Bool :=
  s.feedBookmarks.any (fun b => decide (b.feedId = feedId) && decide (b.userId = userId))

/-- The hydrated feed returned by the read paths: the feed row, the joined
author row, and the transient fields `processFeedItem` attaches. -/
structure FeedVo where
  feed : FeedRow
  user : UserRow
  feedImages : List FeedImageRow
  tags : List (Option TagRow)
  likedYn : Option Bool
  bookmarkedYn : Option Bool
deriving DecidableEq

/-- `processFeedItem`: attach images, tags and — when a (truthy) requesting
user id is present — the liked/bookmarked flags. -/
def processFeedItem (s : DB) (feed : FeedRow) (user : UserRow)
    (userId : Option Nat) : FeedVo :=
  { feed := feed
    user := user
    feedImages := getFeedImages s feed.id
    tags := getFeedTags s feed.id
    likedYn :=
      match userId with
      | some uid => if uid ≠ 0 then some (getFeedLikeByUser s uid feed.id) else none
      | none => none
    bookmarkedYn :=
      match userId with
      | some uid => if uid ≠ 0 then some (getFeedBookmarkByUser s uid feed.id) else none
      | none => none }

/-- `findOneFeed`: select the feed by id only (`where('feed.id = :id')`),
inner-joining the author; hydrate without a requesting-user context.
`none` models both the missing row (the subsequent dereference throws) and
a failed inner join. -/
def findOneFeed (s : DB) (feedId : Nat) : Option FeedVo := do
  let feed ← feedFindOne s feedId
  let user ← userFindOne s feed.userId
  pure (processFeedItem s feed user none)

/-- `findOneByUser`: same id-only select, hydrated with the requesting
user's id. -/
def findOneByUser (s : DB) (user : UserRow) (feedId : Nat) : Option FeedVo := do
  let feed ← feedFindOne s feedId
  let owner ← userFindOne s feed.userId
  pure (processFeedItem s feed owner (some user.id))

-- The findAll read path.

/-- Insert a feed into a list that is sorted by `createdAt` descending. -/
def insertFeedDesc (f : FeedRow) : List FeedRow → List FeedRow
  | [] => [f]
  | g :: gs => if f.createdAt ≤ g.createdAt then g :: insertFeedDesc f gs else f :: g :: gs

/-- `orderBy('feed.createdAt', 'DESC')`. -/
def orderByCreatedAtDesc : List FeedRow → List FeedRow
  | [] => []
  | f :: fs => insertFeedDesc f (orderByCreatedAtDesc fs)

/-- The tags relation of a feed (`leftJoinAndSelect('feed.tags', 'tags')`):
tags reached through the mapper table; a dangling mapper contributes
nothing under a left join. -/
def tagsOf (s : DB) (feedId : Nat) : List TagRow :=
  (s.mappers.filter (fun m => decide (m.feedId = feedId))).filterMap
    (fun m => tagFindOneById s m.tagId)

/-- The query of `findAll` before the in-memory steps: visible
(`displayYn = Y`), active, author inner-joined (so the author row must
exist), optionally excluding author ids — the `NOT IN` clause is added only
when the exclusion list is non-empty — ordered by creation time
descending. -/
def findAllBase (s : DB) (excludeUserIds : List Nat) : List FeedRow :=
  orderByCreatedAtDesc (s.feeds.filter (fun f =>
    (userFindOne s f.userId).isSome &&
    decide (f.displayYn = YN.Y) &&
    decide (f.status = FEED_STATUS.ACTIVE) &&
    (if 0 < excludeUserIds.length then !(decide (f.userId ∈ excludeUserIds)) else true)))

/-- The in-memory tag filter of `findAll`: applied only when
`feedListDto.tagName` is present and non-empty (JS truthiness plus the
length check). -/
def findAllFiltered (s : DB) (dto : FeedListDto) (excludeUserIds : List Nat) :
    List FeedRow :=
  let base := findAllBase s excludeUserIds
  match dto.tagName with
  | some tn =>
      if 0 < tn.length then
        base.filter (fun f => (tagsOf s f.id).any (fun t => decide (t.tagName = tn)))
      else base
  | none => base

/-- The paginated response envelope (`generatePaginatedResponse`). -/
structure PaginateResponseVo where
  items : List FeedVo
  totalCount : Nat
  page : Nat
  limit : Nat
deriving DecidableEq

/-- Hydrate one feed row for a list item: the inner-joined author must
exist (it does for rows of `findAllBase`), then `processFeedItem`. -/
def hydrate (s : DB) (userId : Option Nat) (f : FeedRow) : Option FeedVo := do
  let user ← userFindOne s f.userId
  pure (processFeedItem s f user userId)

/-- `findAll` with both optional arguments present: fetch the full visible
active set, tag-filter it in memory, then slice with
`offset = (page - 1) * limit` and return the filtered set's size as
`totalCount`.  The hydration loop runs over the whole filtered set; the
page items alias into it, so the returned items are the hydrated slice. -/
def findAll (s : DB) (user : UserRow) (dto : FeedListDto)
    (excludeUserIds : List Nat) : PaginateResponseVo :=
  let filteredFeeds := findAllFiltered s dto excludeUserIds
  let offset := (dto.page - 1) * dto.limit
  let paginatedFeeds := (filteredFeeds.drop offset).take dto.limit
  { items := paginatedFeeds.filterMap (hydrate s (some user.id))
    totalCount := filteredFeeds.length
    page := dto.page
    limit := dto.limit }

/-- `findAll` as declared: `feedListDto` and `excludeUserIds` are optional
parameters, but the body dereferences `excludeUserIds.length` (line 50) and
`feedListDto.tagName`/`page`/`limit` (lines 60–82) unconditionally, so a
call omitting either argument throws; `none` models that failure. -/
def findAllOpt (s : DB) (user : UserRow) (feedListDto : Option FeedListDto)
    (excludeUserIds : Option (List Nat)) : Option PaginateResponseVo :=
  match excludeUserIds, feedListDto with
  | some ex, some dto => some (findAll s user dto ex)
  | _, _ => none

-- Write transactions.

/-- Insert the new feed row of `createFeed` (`new Feed(dto)` then
`transaction.save`): fresh id from the sequence, owner set to the caller,
counters zero, column defaults `ACTIVE`/visible. -/
def insertFeed (s : DB) (userId : Nat) (dto : FeedCreateDto) (now : Nat) :
    FeedRow × DB :=
  let f : FeedRow :=
    { id := s.nextFeedId
      userId := userId
      description := dto.description
      likeCount := 0
      commentCount := 0
      showLikeCountYn := YN.Y
      displayYn := YN.Y
      status := FEED_STATUS.ACTIVE
      createdAt := now
      updatedAt := now }
  (f, { s with feeds := s.feeds ++ [f], nextFeedId := s.nextFeedId + 1 })

/-- Find-or-create of a tag row by name, shared by `createFeed` and
`updateFeed`. -/
def findOrCreateTag (s : DB) (tagName : String) : TagRow × DB :=
  match tagFindOneByName s tagName with
  | some t => (t, s)
  | none => insertTag s tagName

/-- One iteration of `createFeed`'s tag loop: find-or-create the tag, then
unconditionally insert a (feed, tag) mapper row — `createFeed` has no
mapper-existence check. -/
def createFeedTagStep (feedId : Nat) (s : DB) (tagName : String) : DB :=
  insertMapper (findOrCreateTag s tagName).2 feedId (findOrCreateTag s tagName).1.id

/-- Image inserts of `createFeed`: one row per supplied image, in supplied
order (the source's empty-list guard is a no-op). -/
def insertImages (s : DB) (feedId : Nat) (images : List FeedImageDto) : DB :=
  { s with feedImages := s.feedImages ++ images.map (fun im =>
      { feedId := feedId, image := im.image, sortOrder := im.sortOrder }) }

/-- `createFeed`: one transaction inserting the feed row, its image rows,
incrementing the author's `feedCount`, and running the tag loop. -/
def createFeed (s : DB) (userId : Nat) (dto : FeedCreateDto) (now : Nat) :
    Option (FeedRow × DB) := do
  let user ← userFindOne
      (insertImages (insertFeed s userId dto now).2 (insertFeed s userId dto now).1.id
        dto.feedImages) userId
  pure ((insertFeed s userId dto now).1,
    dto.tagNames.foldl (createFeedTagStep (insertFeed s userId dto now).1.id)
      (saveUser
        (insertImages (insertFeed s userId dto now).2 (insertFeed s userId dto now).1.id
          dto.feedImages)
        { user with feedCount := user.feedCount + 1 }))

/-- Insert of `likeFeed` (`transaction.save(new FeedLike().set(...))`). -/
def insertLike (s : DB) (userId feedId : Nat) : DB :=
  { s with feedLikes := s.feedLikes ++ [{ userId := userId, feedId := feedId }] }

/-- `likeFeed`: insert the (user, feed) like row — no pre-existence check —
then re-read the feed and save it with `likeCount` incremented. -/
def likeFeed (s : DB) (userId feedId : Nat) : Option DB := do
  let vo ← findOneFeed (insertLike s userId feedId) feedId
  pure (saveFeed (insertLike s userId feedId)
    { vo.feed with likeCount := vo.feed.likeCount + 1 })

/-- `deleteLikeFeed`: delete the (user, feed) like rows, then re-read the
feed and save it with `likeCount` decremented — unconditionally, whether or
not a row was deleted. -/
def deleteLikeFeed (s : DB) (userId feedId : Nat) : Option DB := do
  let vo ← findOneFeed (deleteLikeRows s userId feedId) feedId
  pure (saveFeed (deleteLikeRows s userId feedId)
    { vo.feed with likeCount := vo.feed.likeCount - 1 })

/-- `updateFeedStatus`: set the status, then adjust the author's
`feedCount` — increment when the (new) status is `ACTIVE`, decrement
otherwise; there is no old-status guard. -/
def updateFeedStatus (s : DB) (feedId : Nat) (newStatus : FEED_STATUS) :
    Option (FeedRow × DB) := do
  let vo ← findOneFeed s feedId
  let feed := { vo.feed with status := newStatus }
  let s1 := saveFeed s feed
  let user ← userFindOne s1 feed.userId
  let user1 :=
    if feed.status = FEED_STATUS.ACTIVE then { user with feedCount := user.feedCount + 1 }
    else { user with feedCount := user.feedCount - 1 }
  pure (feed, saveUser s1 user1)

/-- `hardDeleteFeed`: one transaction deleting, in order, the feed's image
rows, like rows, bookmark rows, then the feed row, then decrementing the
given user's `feedCount`. -/
def hardDeleteFeed (s : DB) (userId feedId : Nat) : Option DB := do
  let s1 := deleteImagesOf s feedId
  let s2 := deleteLikesOf s1 feedId
  let s3 := deleteBookmarksOf s2 feedId
  let s4 := deleteFeedRow s3 feedId
  let user ← userFindOne s4 userId
  pure (saveUser s4 { user with feedCount := user.feedCount - 1 })

/-- First-occurrence deduplication, as `new Set(...)` iterated with the
spread operator. -/
def dedupFirst : List String → List String
  | [] => []
  | a :: l => a :: (dedupFirst l).filter (fun b => !(decide (b = a)))

/-- Mapper insert of `updateFeed`'s tag loop: create the (feed, tag) row
only when `MapperFeedTag.findOne` misses. -/
def addMapperIfAbsent (s : DB) (feedId tagId : Nat) : DB :=
  match mapperFindOne s feedId tagId with
  | some _ => s
  | none => insertMapper s feedId tagId

/-- Deletion pass of `updateFeed`'s tag loop: for each tag name diffed out,
look the tag up by name and delete its (feed, tag) mapper row; the JS
truthiness check `deleteTag && deleteTag.id` skips a tag with id 0. -/
def deleteTagsDiff (s : DB) (feedId : Nat) (deletedTags : List String) : DB :=
  deletedTags.foldl (fun acc tn =>
    match tagFindOneByName acc tn with
    | some deleteTag =>
        if deleteTag.id ≠ 0 then deleteMapper acc feedId deleteTag.id else acc
    | none => acc) s

/-- Trailing part of one iteration of `updateFeed`'s tag loop, after the
tag and mapper writes: re-read the feed's current tag names
(`findOneFeed(feedId).tags`, whose `.map(tag => tag.tagName)` dereference
fails on a dangling mapper), keep their first occurrences (`new Set`),
diff them against the supplied set, and run the deletion pass on the
diff. -/
def updateFeedTagLoopBody (feedId : Nat) (supplied : List String) (s2 : DB) :
    Option DB := do
  let vo ← findOneFeed s2 feedId
  let tagRows ← vo.tags.mapM id
  pure (deleteTagsDiff s2 feedId
    ((dedupFirst (tagRows.map (fun t => t.tagName))).filter
      (fun tn => !(decide (tn ∈ supplied)))))

/-- One iteration of `updateFeed`'s tag loop over an accumulated state:
find-or-create the tag; insert the (feed, tag) mapper row if absent; then
the diff-and-delete pass. -/
def updateFeedTagStep (feedId : Nat) (supplied : List String)
    (acc : Option DB) (tagName : String) : Option DB := do
  let s ← acc
  updateFeedTagLoopBody feedId supplied
    (addMapperIfAbsent (findOrCreateTag s tagName).2 feedId
      (findOrCreateTag s tagName).1.id)

/-- Tag reconciliation of `updateFeed`: the source's two exclusive `if`s —
an empty supplied list deletes all of the feed's mapper rows, a non-empty
one runs the per-tag loop. -/
def updateFeedTags (s : DB) (feedId : Nat) (tagNames : List String) : Option DB :=
  if tagNames.length = 0 then some (deleteMappersOf s feedId)
  else tagNames.foldl (updateFeedTagStep feedId tagNames) (some s)

/-- `updateFeed`: fetch the feed row; reconcile the tag set; finally save
the fetched row with the new description and update timestamp. -/
def updateFeed (s : DB) (feedId : Nat) (dto : FeedUpdateDto) (now : Nat) :
    Option (FeedRow × DB) := do
  let feed ← feedFindOne s feedId
  let s2 ← updateFeedTags s feedId dto.tagNames
  pure ({ feed with description := dto.description, updatedAt := now },
    saveFeed s2 { feed with description := dto.description, updatedAt := now })

-- Specification-level predicates used by the theorems.

/-- A tag name is mapped to a feed: some mapper row of the feed resolves to
a tag row with that name. -/
def MappedName (s : DB) (feedId : Nat) (name : String) : Prop :=
  ∃ m ∈ s.mappers, m.feedId = feedId ∧ ∃ t ∈ s.tags, t.id = m.tagId ∧ t.tagName = name

instance (s : DB) (feedId : Nat) (name : String) : Decidable (MappedName s feedId name) := by
  unfold MappedName
  infer_instance

/-- Schema well-formedness the write paths rely on: tag ids and names are
unique, tag ids are positive and below the id sequence, the sequence is
positive, and every mapper row resolves to a tag row. -/
def WF (s : DB) : Prop :=
  (s.tags.map (fun t => t.id)).Nodup ∧
  (s.tags.map (fun t => t.tagName)).Nodup ∧
  (∀ t ∈ s.tags, t.id ≠ 0 ∧ t.id < s.nextTagId) ∧
  (∀ m ∈ s.mappers, ∃ t ∈ s.tags, t.id = m.tagId) ∧
  0 < s.nextTagId

instance (s : DB) : Decidable (WF s) := by
  unfold WF
  infer_instance

/-- The denormalized like counter invariant of spec §3: every stored feed
row's `likeCount` equals the number of like rows for that feed id. -/
def LikeCountInvariant (s : DB) : Prop :=
  ∀ f ∈ s.feeds, f.likeCount =
    ((s.feedLikes.filter (fun l => decide (l.feedId = f.id))).length : Int)

instance (s : DB) : Decidable (LikeCountInvariant s) := by
  unfold LikeCountInvariant
  infer_instance

-- Helper lemmas about the row-level primitives.

lemma find?_replaceUser (l : List UserRow) (u u' : UserRow)
    (h : l.find? (fun v => decide (v.id = u'.id)) = some u) :
    (l.map (fun v => if v.id = u'.id then u' else v)).find?
      (fun v => decide (v.id = u'.id)) = some u' := by
  induction l with
  | nil => simp at h
  | cons a l ih =>
    by_cases ha : a.id = u'.id
    · simp only [List.map_cons, if_pos ha]
      exact List.find?_cons_of_pos _ (by simp)
    · rw [List.find?_cons_of_neg _ (by simp [ha])] at h
      simp only [List.map_cons, if_neg ha]
      rw [List.find?_cons_of_neg _ (by simp [ha])]
      exact ih h

lemma find?_replaceFeed (l : List FeedRow) (u u' : FeedRow)
    (h : l.find? (fun v => decide (v.id = u'.id)) = some u) :
    (l.map (fun v => if v.id = u'.id then u' else v)).find?
      (fun v => decide (v.id = u'.id)) = some u' := by
  induction l with
  | nil => simp at h
  | cons a l ih =>
    by_cases ha : a.id = u'.id
    · simp only [List.map_cons, if_pos ha]
      exact List.find?_cons_of_pos _ (by simp)
    · rw [List.find?_cons_of_neg _ (by simp [ha])] at h
      simp only [List.map_cons, if_neg ha]
      rw [List.find?_cons_of_neg _ (by simp [ha])]
      exact ih h

lemma userFindOne_id {s : DB} {uid : Nat} {u : UserRow}
    (h : userFindOne s uid = some u) : u.id = uid := by
  unfold userFindOne at h
  simpa using List.find?_some h

lemma feedFindOne_id {s : DB} {fid : Nat} {f : FeedRow}
    (h : feedFindOne s fid = some f) : f.id = fid := by
  unfold feedFindOne at h
  simpa using List.find?_some h

lemma feedFindOne_mem {s : DB} {fid : Nat} {f : FeedRow}
    (h : feedFindOne s fid = some f) : f ∈ s.feeds :=
  List.mem_of_find?_eq_some (by simpa [feedFindOne] using h)

lemma userFindOne_saveUser {s : DB} {uid : Nat} {u u' : UserRow}
    (hu : userFindOne s uid = some u) (hid : u'.id = uid) :
    userFindOne (saveUser s u') uid = some u' := by
  subst hid
  simpa [userFindOne, saveUser] using
    find?_replaceUser s.users u u' (by simpa [userFindOne] using hu)

lemma feedFindOne_saveFeed {s : DB} {fid : Nat} {f f' : FeedRow}
    (hf : feedFindOne s fid = some f) (hid : f'.id = fid) :
    feedFindOne (saveFeed s f') fid = some f' := by
  subst hid
  simpa [feedFindOne, saveFeed] using
    find?_replaceFeed s.feeds f f' (by simpa [feedFindOne] using hf)

lemma findOneFeed_eq {s : DB} {fid : Nat} {feed : FeedRow} {user : UserRow}
    (hf : feedFindOne s fid = some feed)
    (hu : userFindOne s feed.userId = some user) :
    findOneFeed s fid = some (processFeedItem s feed user none) := by
  simp [findOneFeed, hf, hu]

-- Membership lemmas for the findAll pipeline.

lemma mem_insertFeedDesc {x f : FeedRow} {l : List FeedRow} :
    x ∈ insertFeedDesc f l ↔ x = f ∨ x ∈ l := by
  induction l with
  | nil => simp [insertFeedDesc]
  | cons g gs ih =>
    by_cases hc : f.createdAt ≤ g.createdAt
    · simp only [insertFeedDesc, if_pos hc, List.mem_cons, ih]
      tauto
    · simp only [insertFeedDesc, if_neg hc, List.mem_cons]

lemma mem_orderByCreatedAtDesc {x : FeedRow} {l : List FeedRow} :
    x ∈ orderByCreatedAtDesc l ↔ x ∈ l := by
  induction l with
  | nil => simp [orderByCreatedAtDesc]
  | cons f fs ih => simp [orderByCreatedAtDesc, mem_insertFeedDesc, ih]

lemma mem_findAllBase {s : DB} {ex : List Nat} {f : FeedRow}
    (h : f ∈ findAllBase s ex) :
    (userFindOne s f.userId).isSome = true ∧
      f.displayYn = YN.Y ∧ f.status = FEED_STATUS.ACTIVE := by
  unfold findAllBase at h
  rw [mem_orderByCreatedAtDesc] at h
  have := (List.mem_filter.mp h).2
  simp only [Bool.and_eq_true, decide_eq_true_eq] at this
  exact ⟨this.1.1.1, this.1.1.2, this.1.2⟩

lemma mem_findAllFiltered {s : DB} {dto : FeedListDto} {ex : List Nat} {f : FeedRow}
    (h : f ∈ findAllFiltered s dto ex) : f ∈ findAllBase s ex := by
  unfold findAllFiltered at h
  rcases dto with ⟨tn?, page, limit⟩
  cases tn? with
  | none => exact h
  | some tn =>
    simp only at h
    split at h
    · exact (List.mem_filter.mp h).1
    · exact h

lemma hydrate_some {s : DB} {uid : Option Nat} {f : FeedRow} {vo : FeedVo}
    (h : hydrate s uid f = some vo) : vo.feed = f := by
  unfold hydrate at h
  cases hu : userFindOne s f.userId with
  | none => rw [hu] at h; simp at h
  | some u =>
    rw [hu] at h
    simp only [Option.bind_eq_bind, Option.some_bind, Option.pure_def,
      Option.some.injEq] at h
    subst h
    rfl

lemma hydrate_isSome {s : DB} {uid : Option Nat} {f : FeedRow}
    (h : (userFindOne s f.userId).isSome = true) : (hydrate s uid f).isSome = true := by
  unfold hydrate
  cases hu : userFindOne s f.userId with
  | none => rw [hu] at h; simp at h
  | some u => simp

-- C10 -----------------------------------------------------------------

/-- C10: `findAll` declares `feedListDto` and `excludeUserIds` optional but
dereferences both unconditionally; a call supplying both succeeds (the
failing branch is unreachable), and a call omitting either argument
fails. -/
theorem C10_findAll_optional_args_required (s : DB) (user : UserRow)
    (dto : FeedListDto) (ex : List Nat)
    (d : Option FeedListDto) (e : Option (List Nat)) :
    findAllOpt s user (some dto) (some ex) = some (findAll s user dto ex) ∧
    findAllOpt s user none e = none ∧
    findAllOpt s user d none = none := by
  refine ⟨rfl, ?_, ?_⟩
  · cases e <;> rfl
  · cases d <;> rfl

-- C9 ------------------------------------------------------------------

/-- C9: `findOneFeed` and `findOneByUser` select by id only, returning the
hydrated feed whatever its `status` and `displayYn`, while `findAll` never
returns an item whose feed is not ACTIVE and visible. -/
theorem C9_findOne_ignores_status_and_visibility (s : DB) (fid : Nat)
    (feed : FeedRow) (owner ruser : UserRow) (dto : FeedListDto) (ex : List Nat)
    (hf : feedFindOne s fid = some feed)
    (ho : userFindOne s feed.userId = some owner) :
    (∃ vo, findOneFeed s fid = some vo ∧ vo.feed = feed) ∧
    (∃ vo, findOneByUser s ruser fid = some vo ∧ vo.feed = feed) ∧
    (∀ vo ∈ (findAll s ruser dto ex).items,
      vo.feed.status = FEED_STATUS.ACTIVE ∧ vo.feed.displayYn = YN.Y) := by
  refine ⟨⟨processFeedItem s feed owner none, by simp [findOneFeed, hf, ho], rfl⟩,
    ⟨processFeedItem s feed owner (some ruser.id), by simp [findOneByUser, hf, ho], rfl⟩, ?_⟩
  intro vo hvo
  simp only [findAll, List.mem_filterMap] at hvo
  obtain ⟨f, hfmem, hhyd⟩ := hvo
  have hfeedEq := hydrate_some hhyd
  have hfilt : f ∈ findAllFiltered s dto ex :=
    (List.drop_sublist _ _).subset ((List.take_sublist _ _).subset hfmem)
  have hbase := mem_findAllBase (mem_findAllFiltered hfilt)
  rw [hfeedEq]
  exact ⟨hbase.2.2, hbase.2.1⟩

-- C8 ------------------------------------------------------------------

/-- Concrete state for C8: one feed whose two image rows are stored out of
`sortOrder` order. -/
def c8State : DB :=
  { feeds := [{ id := 1, userId := 1, description := "d", likeCount := 0,
                commentCount := 0, showLikeCountYn := YN.Y, displayYn := YN.Y,
                status := FEED_STATUS.ACTIVE, createdAt := 0, updatedAt := 0 }]
    users := [{ id := 1, feedCount := 1, delYn := YN.N, followingIds := [] }]
    feedImages := [{ feedId := 1, image := "a", sortOrder := 5 },
                   { feedId := 1, image := "b", sortOrder := 1 }]
    feedLikes := []
    feedBookmarks := []
    tags := []
    mappers := []
    nextFeedId := 2
    nextTagId := 1 }

/-- The hydrated feed `findOneFeed` returns on `c8State`. -/
def c8Vo : FeedVo :=
  { feed := { id := 1, userId := 1, description := "d", likeCount := 0,
              commentCount := 0, showLikeCountYn := YN.Y, displayYn := YN.Y,
              status := FEED_STATUS.ACTIVE, createdAt := 0, updatedAt := 0 }
    user := { id := 1, feedCount := 1, delYn := YN.N, followingIds := [] }
    feedImages := [{ feedId := 1, image := "a", sortOrder := 5 },
                   { feedId := 1, image := "b", sortOrder := 1 }]
    tags := []
    likedYn := none
    bookmarkedYn := none }

/-- C8 counterexample: the source image query has no `order by`, so a feed
whose image rows are stored out of `sortOrder` order is returned with the
attached list `[5, 1]` — not ascending. -/
theorem C8_images_unsorted_cex :
    (findOneFeed c8State 1).map (fun vo => vo.feedImages.map (fun im => im.sortOrder))
      = some [5, 1] ∧
    ¬ List.Sorted (· ≤ ·) ([5, 1] : List Int) := by
  constructor
  · decide
  · decide

/-- C8 (amended): the attached `feedImages` of a hydrated feed are exactly
the stored rows for that feed id in STORAGE order (a sublist of the image
table); no ordering by `sortOrder` is applied. -/
theorem C8_images_in_storage_order (s : DB) (fid : Nat) (vo : FeedVo)
    (h : findOneFeed s fid = some vo) :
    List.Sublist vo.feedImages s.feedImages ∧
    (∀ im, im ∈ vo.feedImages ↔ im ∈ s.feedImages ∧ im.feedId = vo.feed.id) := by
  have hshape : vo.feedImages = getFeedImages s vo.feed.id := by
    unfold findOneFeed at h
    cases hf : feedFindOne s fid with
    | none => rw [hf] at h; simp at h
    | some feed =>
      rw [hf] at h
      simp only [Option.bind_eq_bind, Option.some_bind] at h
      cases hu : userFindOne s feed.userId with
      | none => rw [hu] at h; simp at h
      | some u =>
        rw [hu] at h
        simp only [Option.some_bind, Option.pure_def, Option.some.injEq] at h
        subst h
        rfl
  rw [hshape]
  constructor
  · exact List.filter_sublist s.feedImages
  · intro im
    simp [getFeedImages, List.mem_filter]

/-- Witness for C8's amended theorem at the concrete state. -/
theorem C8_images_in_storage_order_witness :
    findOneFeed c8State 1 = some c8Vo ∧
    List.Sublist c8Vo.feedImages c8State.feedImages :=
  ⟨by decide, (C8_images_in_storage_order c8State 1 c8Vo (by decide)).1⟩

-- C5 ------------------------------------------------------------------

/-- Concrete state for C5: the feed is already ACTIVE and its author's
`feedCount` is 1. -/
def c5State : DB :=
  { feeds := [{ id := 1, userId := 1, description := "d", likeCount := 0,
                commentCount := 0, showLikeCountYn := YN.Y, displayYn := YN.Y,
                status := FEED_STATUS.ACTIVE, createdAt := 0, updatedAt := 0 }]
    users := [{ id := 1, feedCount := 1, delYn := YN.N, followingIds := [] }]
    feedImages := []
    feedLikes := []
    feedBookmarks := []
    tags := []
    mappers := []
    nextFeedId := 2
    nextTagId := 1 }

/-- C5 counterexample: transitioning an already-ACTIVE feed to ACTIVE is
not an actual transition, yet the author's `feedCount` goes from 1 to 2 —
the counter adjustment runs unconditionally. -/
theorem C5_status_counter_double_count_cex :
    (feedFindOne c5State 1).map (fun f => f.status) = some FEED_STATUS.ACTIVE ∧
    (userFindOne c5State 1).map (fun u => u.feedCount) = some 1 ∧
    (updateFeedStatus c5State 1 FEED_STATUS.ACTIVE).map
      (fun r => (userFindOne r.2 1).map (fun u => u.feedCount)) = some (some 2) := by
  refine ⟨by decide, by decide, by decide⟩

/-- C5 (amended): `updateFeedStatus` sets the status and ALWAYS adjusts the
author's `feedCount` — increment when the target status is ACTIVE,
decrement otherwise — with no guard on the old status, so repeated
transitions to the same status adjust the counter each time. -/
theorem C5_updateFeedStatus_unconditional_adjust (s : DB) (fid : Nat)
    (st : FEED_STATUS) (feed : FeedRow) (user : UserRow)
    (hf : feedFindOne s fid = some feed)
    (hu : userFindOne s feed.userId = some user) :
    ∃ s', updateFeedStatus s fid st = some ({ feed with status := st }, s') ∧
      feedFindOne s' fid = some { feed with status := st } ∧
      userFindOne s' feed.userId = some
        (if st = FEED_STATUS.ACTIVE then { user with feedCount := user.feedCount + 1 }
         else { user with feedCount := user.feedCount - 1 }) := by
  have hid : feed.id = fid := feedFindOne_id hf
  have huid : user.id = feed.userId := userFindOne_id hu
  have hfeed' : feedFindOne (saveFeed s { feed with status := st }) fid
      = some { feed with status := st } := feedFindOne_saveFeed hf hid
  have husers : userFindOne (saveFeed s { feed with status := st }) feed.userId
      = some user := by simpa [userFindOne, saveFeed] using hu
  refine ⟨saveUser (saveFeed s { feed with status := st })
      (if st = FEED_STATUS.ACTIVE then { user with feedCount := user.feedCount + 1 }
       else { user with feedCount := user.feedCount - 1 }), ?_, ?_, ?_⟩
  · simp only [updateFeedStatus, findOneFeed_eq hf hu, Option.bind_eq_bind,
      Option.some_bind]
    rw [show (processFeedItem s feed user none).feed = feed from rfl]
    rw [show ({ feed with status := st } : FeedRow).userId = feed.userId from rfl] at *
    rw [husers]
    simp
  · simpa [userFindOne, saveUser, feedFindOne] using hfeed'
  · refine userFindOne_saveUser husers ?_
    by_cases hst : st = FEED_STATUS.ACTIVE <;> simp [hst, huid]

/-- The feed row of `c5State`. -/
def c5Feed : FeedRow :=
  { id := 1, userId := 1, description := "d", likeCount := 0,
    commentCount := 0, showLikeCountYn := YN.Y, displayYn := YN.Y,
    status := FEED_STATUS.ACTIVE, createdAt := 0, updatedAt := 0 }

/-- The user row of `c5State`. -/
def c5User : UserRow := { id := 1, feedCount := 1, delYn := YN.N, followingIds := [] }

/-- Witness for C5's amended theorem at the concrete state. -/
theorem C5_updateFeedStatus_unconditional_adjust_witness :
    ∃ s', updateFeedStatus c5State 1 FEED_STATUS.ACTIVE
        = some ({ c5Feed with status := FEED_STATUS.ACTIVE }, s') ∧
      feedFindOne s' 1 = some { c5Feed with status := FEED_STATUS.ACTIVE } ∧
      userFindOne s' c5Feed.userId = some
        (if FEED_STATUS.ACTIVE = FEED_STATUS.ACTIVE
         then { c5User with feedCount := c5User.feedCount + 1 }
         else { c5User with feedCount := c5User.feedCount - 1 }) :=
  C5_updateFeedStatus_unconditional_adjust c5State 1 FEED_STATUS.ACTIVE c5Feed c5User
    (by decide) (by decide)

/-- Concrete state for the C9 witness: the stored feed is DELETED and
hidden (`displayYn = N`). -/
def c9State : DB :=
  { feeds := [{ id := 1, userId := 1, description := "d", likeCount := 0,
                commentCount := 0, showLikeCountYn := YN.Y, displayYn := YN.N,
                status := FEED_STATUS.DELETED, createdAt := 0, updatedAt := 0 }]
    users := [{ id := 1, feedCount := 0, delYn := YN.N, followingIds := [] }]
    feedImages := []
    feedLikes := []
    feedBookmarks := []
    tags := []
    mappers := []
    nextFeedId := 2
    nextTagId := 1 }

/-- The DELETED and hidden feed row of `c9State`. -/
def c9Feed : FeedRow :=
  { id := 1, userId := 1, description := "d", likeCount := 0,
    commentCount := 0, showLikeCountYn := YN.Y, displayYn := YN.N,
    status := FEED_STATUS.DELETED, createdAt := 0, updatedAt := 0 }

/-- The user row of `c9State`. -/
def c9User : UserRow := { id := 1, feedCount := 0, delYn := YN.N, followingIds := [] }

/-- Witness for C9 at a concrete state whose only feed is DELETED and
hidden: the single-feed reads return it, the list read does not. -/
theorem C9_findOne_ignores_status_and_visibility_witness :
    (∃ vo, findOneFeed c9State 1 = some vo ∧ vo.feed = c9Feed) ∧
    (∃ vo, findOneByUser c9State c9User 1 = some vo ∧ vo.feed = c9Feed) ∧
    (∀ vo ∈ (findAll c9State c9User ⟨none, 1, 10⟩ []).items,
      vo.feed.status = FEED_STATUS.ACTIVE ∧ vo.feed.displayYn = YN.Y) :=
  C9_findOne_ignores_status_and_visibility c9State 1 c9Feed c9User c9User ⟨none, 1, 10⟩ []
    (by decide) (by decide)

-- C3 ------------------------------------------------------------------

-- Counting lemmas for the like table.

lemma length_filter_like_le (l : List FeedLikeRow) (uid fid : Nat) :
    (l.filter (fun x => decide (x.feedId = fid) && decide (x.userId = uid))).length ≤
      (l.filter (fun x => decide (x.feedId = fid))).length := by
  induction l with
  | nil => simp
  | cons a l ih =>
    by_cases h1 : a.feedId = fid <;> by_cases h2 : a.userId = uid <;>
      simp [h1, h2, List.filter_cons] <;> omega

lemma length_filter_like_delete (l : List FeedLikeRow) (uid fid : Nat) :
    ((l.filter (fun x => !(decide (x.feedId = fid) && decide (x.userId = uid)))).filter
        (fun x => decide (x.feedId = fid))).length =
      (l.filter (fun x => decide (x.feedId = fid))).length -
        (l.filter (fun x => decide (x.feedId = fid) && decide (x.userId = uid))).length := by
  induction l with
  | nil => simp
  | cons a l ih =>
    have hle := length_filter_like_le l uid fid
    simp only [List.filter_cons]
    by_cases h1 : a.feedId = fid
    · by_cases h2 : a.userId = uid
      · rw [if_neg (by simp [h1, h2]), if_pos (by simp [h1]), if_pos (by simp [h1, h2])]
        simp only [List.length_cons]
        omega
      · rw [if_pos (by simp [h2]), if_pos (by simp [h1]), if_neg (by simp [h2]),
          List.filter_cons, if_pos (by simp [h1])]
        simp only [List.length_cons]
        omega
    · rw [if_pos (by simp [h1]), if_neg (by simp [h1]), if_neg (by simp [h1]),
        List.filter_cons, if_neg (by simp [h1])]
      exact ih

lemma length_filter_like_delete_other (l : List FeedLikeRow) (uid fid fid' : Nat)
    (hne : fid' ≠ fid) :
    ((l.filter (fun x => !(decide (x.feedId = fid) && decide (x.userId = uid)))).filter
        (fun x => decide (x.feedId = fid'))).length =
      (l.filter (fun x => decide (x.feedId = fid'))).length := by
  induction l with
  | nil => simp
  | cons a l ih =>
    simp only [List.filter_cons]
    by_cases h1 : a.feedId = fid
    · have h3 : ¬ a.feedId = fid' := by rw [h1]; exact fun hc => hne hc.symm
      by_cases h2 : a.userId = uid
      · rw [if_neg (by simp [h1, h2]), if_neg (by simp [h3])]
        exact ih
      · rw [if_pos (by simp [h2]), if_neg (by simp [h3]), List.filter_cons,
          if_neg (by simp [h3])]
        exact ih
    · by_cases h3 : a.feedId = fid'
      · rw [if_pos (by simp [h1]), if_pos (by simp [h3]), List.filter_cons,
          if_pos (by simp [h3])]
        simp only [List.length_cons, ih]
      · rw [if_pos (by simp [h1]), if_neg (by simp [h3]), List.filter_cons,
          if_neg (by simp [h3])]
        exact ih

lemma findOneFeed_inv {s : DB} {fid : Nat} {vo : FeedVo}
    (h : findOneFeed s fid = some vo) :
    feedFindOne s fid = some vo.feed ∧ (userFindOne s vo.feed.userId).isSome = true := by
  unfold findOneFeed at h
  cases hf : feedFindOne s fid with
  | none => rw [hf] at h; simp at h
  | some feed =>
    rw [hf] at h
    simp only [Option.bind_eq_bind, Option.some_bind] at h
    cases hu : userFindOne s feed.userId with
    | none => rw [hu] at h; simp at h
    | some u =>
      rw [hu] at h
      simp only [Option.some_bind, Option.pure_def, Option.some.injEq] at h
      subst h
      refine ⟨?_, ?_⟩
      · rw [show (processFeedItem s feed u none).feed = feed from rfl]
      · rw [show (processFeedItem s feed u none).feed = feed from rfl, hu]
        rfl

lemma likeFeed_eq {s s' : DB} {uid fid : Nat} (h : likeFeed s uid fid = some s') :
    ∃ vo, findOneFeed (insertLike s uid fid) fid = some vo ∧
      s' = saveFeed (insertLike s uid fid)
        { vo.feed with likeCount := vo.feed.likeCount + 1 } := by
  unfold likeFeed at h
  cases hvo : findOneFeed (insertLike s uid fid) fid with
  | none => rw [hvo] at h; simp at h
  | some vo =>
    rw [hvo] at h
    simp only [Option.bind_eq_bind, Option.some_bind, Option.pure_def,
      Option.some.injEq] at h
    exact ⟨vo, rfl, h.symm⟩

lemma deleteLikeFeed_eq {s s' : DB} {uid fid : Nat}
    (h : deleteLikeFeed s uid fid = some s') :
    ∃ vo, findOneFeed (deleteLikeRows s uid fid) fid = some vo ∧
      s' = saveFeed (deleteLikeRows s uid fid)
        { vo.feed with likeCount := vo.feed.likeCount - 1 } := by
  unfold deleteLikeFeed at h
  cases hvo : findOneFeed (deleteLikeRows s uid fid) fid with
  | none => rw [hvo] at h; simp at h
  | some vo =>
    rw [hvo] at h
    simp only [Option.bind_eq_bind, Option.some_bind, Option.pure_def,
      Option.some.injEq] at h
    exact ⟨vo, rfl, h.symm⟩

/-- Concrete state for C3: one feed with `likeCount = 0` and no like
rows — the invariant holds. -/
def c3State : DB :=
  { feeds := [{ id := 1, userId := 1, description := "d", likeCount := 0,
                commentCount := 0, showLikeCountYn := YN.Y, displayYn := YN.Y,
                status := FEED_STATUS.ACTIVE, createdAt := 0, updatedAt := 0 }]
    users := [{ id := 1, feedCount := 1, delYn := YN.N, followingIds := [] }]
    feedImages := []
    feedLikes := []
    feedBookmarks := []
    tags := []
    mappers := []
    nextFeedId := 2
    nextTagId := 1 }

/-- The state `deleteLikeFeed` produces from `c3State`: no like row was
deleted, yet `likeCount` became `-1`. -/
def c3After : DB :=
  { feeds := [{ id := 1, userId := 1, description := "d", likeCount := -1,
                commentCount := 0, showLikeCountYn := YN.Y, displayYn := YN.Y,
                status := FEED_STATUS.ACTIVE, createdAt := 0, updatedAt := 0 }]
    users := [{ id := 1, feedCount := 1, delYn := YN.N, followingIds := [] }]
    feedImages := []
    feedLikes := []
    feedBookmarks := []
    tags := []
    mappers := []
    nextFeedId := 2
    nextTagId := 1 }

/-- C3 counterexample: from a state satisfying the invariant in which no
(user, feed) like row exists, `deleteLikeFeed` still decrements
`likeCount`, breaking the invariant. -/
theorem C3_deleteLike_no_row_breaks_invariant_cex :
    LikeCountInvariant c3State ∧
    deleteLikeFeed c3State 1 1 = some c3After ∧
    ¬ LikeCountInvariant c3After := by
  refine ⟨by decide, by decide, by decide⟩

/-- C3 (amended): `likeFeed` preserves the like-count invariant in every
state, but `deleteLikeFeed` preserves it exactly when the number of
(user, feed) like rows before the call is 1; with no matching row (or
duplicates) the unconditional decrement breaks it. -/
theorem C3_likeCount_invariant_amended (s : DB) (uid fid : Nat)
    (hinv : LikeCountInvariant s) :
    (∀ s', likeFeed s uid fid = some s' → LikeCountInvariant s') ∧
    (∀ s', deleteLikeFeed s uid fid = some s' →
      (LikeCountInvariant s' ↔
        (s.feedLikes.filter
          (fun x => decide (x.feedId = fid) && decide (x.userId = uid))).length = 1)) := by
  constructor
  · intro s' h
    obtain ⟨vo, hvo, rfl⟩ := likeFeed_eq h
    obtain ⟨hfeed, _⟩ := findOneFeed_inv hvo
    have hfeedS : feedFindOne s fid = some vo.feed := hfeed
    have hid : vo.feed.id = fid := feedFindOne_id hfeedS
    have hmem : vo.feed ∈ s.feeds := feedFindOne_mem hfeedS
    intro f' hf'
    simp only [saveFeed, insertLike, List.mem_map] at hf'
    obtain ⟨g, hg, rfl⟩ := hf'
    by_cases hgid : g.id = vo.feed.id
    · rw [if_pos hgid]
      have hcount := hinv vo.feed hmem
      rw [hid] at hcount
      simp only [saveFeed, insertLike, List.filter_append, List.length_append, hid]
      rw [show (([{ userId := uid, feedId := fid }] : List FeedLikeRow).filter
          (fun l => decide (l.feedId = fid))) = [{ userId := uid, feedId := fid }] from by
        rw [List.filter_cons, if_pos (by simp), List.filter_nil]]
      simp only [List.length_cons, List.length_nil]
      push_cast
      omega
    · rw [if_neg hgid]
      have hcount := hinv g hg
      have hgfid : g.id ≠ fid := by rw [← hid]; exact hgid
      simp only [saveFeed, insertLike, List.filter_append, List.length_append]
      rw [show (([{ userId := uid, feedId := fid }] : List FeedLikeRow).filter
          (fun l => decide (l.feedId = g.id))) = [] from by
        rw [List.filter_cons, if_neg (by simp [Ne.symm hgfid]), List.filter_nil]]
      simpa using hcount
  · intro s' h
    obtain ⟨vo, hvo, rfl⟩ := deleteLikeFeed_eq h
    obtain ⟨hfeed, _⟩ := findOneFeed_inv hvo
    have hfeedS : feedFindOne s fid = some vo.feed := hfeed
    have hid : vo.feed.id = fid := feedFindOne_id hfeedS
    have hmem : vo.feed ∈ s.feeds := feedFindOne_mem hfeedS
    have hcount := hinv vo.feed hmem
    rw [hid] at hcount
    have hK := length_filter_like_le s.feedLikes uid fid
    have hD := length_filter_like_delete s.feedLikes uid fid
    constructor
    · intro hinv'
      have hmem' : ({ vo.feed with likeCount := vo.feed.likeCount - 1 } : FeedRow) ∈
          (saveFeed (deleteLikeRows s uid fid)
            { vo.feed with likeCount := vo.feed.likeCount - 1 }).feeds := by
        simp only [saveFeed, List.mem_map]
        exact ⟨vo.feed, hmem, by simp⟩
      have hthis := hinv' _ hmem'
      simp only [saveFeed, deleteLikeRows, hid] at hthis
      rw [hD] at hthis
      rw [hcount] at hthis
      omega
    · intro hK1
      intro f' hf'
      simp only [saveFeed, List.mem_map] at hf'
      obtain ⟨g, hg, rfl⟩ := hf'
      by_cases hgid : g.id = vo.feed.id
      · rw [if_pos hgid]
        simp only [saveFeed, deleteLikeRows, hid]
        rw [hD, hK1, hcount]
        rw [Nat.cast_sub (by omega : 1 ≤ (s.feedLikes.filter
          (fun x => decide (x.feedId = fid))).length)]
        push_cast
        omega
      · rw [if_neg hgid]
        have hcountg := hinv g hg
        have hgfid : g.id ≠ fid := by rw [← hid]; exact hgid
        simp only [saveFeed, deleteLikeRows]
        rw [length_filter_like_delete_other s.feedLikes uid fid g.id hgfid]
        exact hcountg

/-- Witness for C3's amended theorem at the concrete state. -/
theorem C3_likeCount_invariant_amended_witness :
    (∀ s', likeFeed c3State 1 1 = some s' → LikeCountInvariant s') ∧
    (∀ s', deleteLikeFeed c3State 1 1 = some s' →
      (LikeCountInvariant s' ↔
        (c3State.feedLikes.filter
          (fun x => decide (x.feedId = 1) && decide (x.userId = 1))).length = 1)) :=
  C3_likeCount_invariant_amended c3State 1 1 (by decide)

-- C7 ------------------------------------------------------------------

/-- C7: from a state with no (user, feed) like row, `likeFeed` followed by
`deleteLikeFeed` restores the feed row (and its `likeCount`) exactly,
restores the like table, and leaves no (user, feed) like row. -/
theorem C7_like_unlike_roundtrip (s : DB) (uid fid : Nat) (feed : FeedRow)
    (owner : UserRow)
    (hf : feedFindOne s fid = some feed)
    (ho : userFindOne s feed.userId = some owner)
    (hnone : ∀ l ∈ s.feedLikes, ¬(l.userId = uid ∧ l.feedId = fid)) :
    ∃ s1 s2, likeFeed s uid fid = some s1 ∧ deleteLikeFeed s1 uid fid = some s2 ∧
      feedFindOne s2 fid = some feed ∧
      s2.feedLikes = s.feedLikes ∧
      getFeedLikeByUser s2 uid fid = false := by
  have hid : feed.id = fid := feedFindOne_id hf
  have hfA : feedFindOne (insertLike s uid fid) fid = some feed := hf
  have hoA : userFindOne (insertLike s uid fid) feed.userId = some owner := ho
  have hlike : likeFeed s uid fid = some (saveFeed (insertLike s uid fid)
      { feed with likeCount := feed.likeCount + 1 }) := by
    simp only [likeFeed, findOneFeed_eq hfA hoA, Option.bind_eq_bind, Option.some_bind,
      Option.pure_def]
    rfl
  have hfB : feedFindOne (saveFeed (insertLike s uid fid)
      { feed with likeCount := feed.likeCount + 1 }) fid
        = some { feed with likeCount := feed.likeCount + 1 } :=
    feedFindOne_saveFeed hfA hid
  have hfC : feedFindOne (deleteLikeRows (saveFeed (insertLike s uid fid)
      { feed with likeCount := feed.likeCount + 1 }) uid fid) fid
        = some { feed with likeCount := feed.likeCount + 1 } := hfB
  have hoC : userFindOne (deleteLikeRows (saveFeed (insertLike s uid fid)
      { feed with likeCount := feed.likeCount + 1 }) uid fid)
      ({ feed with likeCount := feed.likeCount + 1 } : FeedRow).userId = some owner := ho
  have hback : ({ { feed with likeCount := feed.likeCount + 1 } with
      likeCount := ({ feed with likeCount := feed.likeCount + 1 } : FeedRow).likeCount - 1 }
        : FeedRow) = feed := by
    cases feed
    simp
  have hdel : deleteLikeFeed (saveFeed (insertLike s uid fid)
      { feed with likeCount := feed.likeCount + 1 }) uid fid
        = some (saveFeed (deleteLikeRows (saveFeed (insertLike s uid fid)
            { feed with likeCount := feed.likeCount + 1 }) uid fid) feed) := by
    simp only [deleteLikeFeed, findOneFeed_eq hfC hoC, Option.bind_eq_bind,
      Option.some_bind, Option.pure_def]
    rw [show (processFeedItem (deleteLikeRows (saveFeed (insertLike s uid fid)
      { feed with likeCount := feed.likeCount + 1 }) uid fid)
      { feed with likeCount := feed.likeCount + 1 } owner none).feed
        = ({ feed with likeCount := feed.likeCount + 1 } : FeedRow) from rfl]
    rw [hback]
  have hlikes : (saveFeed (deleteLikeRows (saveFeed (insertLike s uid fid)
      { feed with likeCount := feed.likeCount + 1 }) uid fid) feed).feedLikes
        = s.feedLikes := by
    simp only [saveFeed, deleteLikeRows, insertLike]
    rw [List.filter_append]
    rw [List.filter_eq_self.mpr ?keepall]
    · rw [show (([{ userId := uid, feedId := fid }] : List FeedLikeRow).filter
          (fun l => !(decide (l.feedId = fid) && decide (l.userId = uid)))) = [] from by
        rw [List.filter_cons, if_neg (by simp), List.filter_nil]]
      exact List.append_nil _
    case keepall =>
      intro x hx
      have := hnone x hx
      simp only [Bool.not_eq_eq_eq_not, Bool.not_true, Bool.and_eq_false_iff]
      by_cases h1 : x.feedId = fid
      · right
        simp only [decide_eq_false_iff_not]
        intro h2
        exact this ⟨h2, h1⟩
      · left
        simp [h1]
  refine ⟨_, _, hlike, hdel, ?_, hlikes, ?_⟩
  · have : feedFindOne (deleteLikeRows (saveFeed (insertLike s uid fid)
        { feed with likeCount := feed.likeCount + 1 }) uid fid) fid
          = some { feed with likeCount := feed.likeCount + 1 } := hfC
    exact feedFindOne_saveFeed this hid
  · simp only [getFeedLikeByUser]
    rw [hlikes]
    rw [List.any_eq_false]
    intro x hx
    have := hnone x hx
    simp only [Bool.and_eq_true, decide_eq_true_eq, not_and]
    intro h1 h2
    exact this ⟨h2, h1⟩

/-- Concrete state for the C7 witness. -/
def c7State : DB :=
  { feeds := [{ id := 1, userId := 1, description := "d", likeCount := 0,
                commentCount := 0, showLikeCountYn := YN.Y, displayYn := YN.Y,
                status := FEED_STATUS.ACTIVE, createdAt := 0, updatedAt := 0 }]
    users := [{ id := 1, feedCount := 1, delYn := YN.N, followingIds := [] }]
    feedImages := []
    feedLikes := []
    feedBookmarks := []
    tags := []
    mappers := []
    nextFeedId := 2
    nextTagId := 1 }

/-- The feed row of `c7State`. -/
def c7Feed : FeedRow :=
  { id := 1, userId := 1, description := "d", likeCount := 0,
    commentCount := 0, showLikeCountYn := YN.Y, displayYn := YN.Y,
    status := FEED_STATUS.ACTIVE, createdAt := 0, updatedAt := 0 }

/-- The user row of `c7State`. -/
def c7User : UserRow := { id := 1, feedCount := 1, delYn := YN.N, followingIds := [] }

/-- Witness for C7 at the concrete state. -/
theorem C7_like_unlike_roundtrip_witness :
    ∃ s1 s2, likeFeed c7State 2 1 = some s1 ∧ deleteLikeFeed s1 2 1 = some s2 ∧
      feedFindOne s2 1 = some c7Feed ∧
      s2.feedLikes = c7State.feedLikes ∧
      getFeedLikeByUser s2 2 1 = false :=
  C7_like_unlike_roundtrip c7State 2 1 c7Feed c7User (by decide) (by decide) (by decide)

-- C6 ------------------------------------------------------------------

/-- C6: `hardDeleteFeed` removes every image, like and bookmark row of the
feed and the feed row itself, and decrements the author's `feedCount` by
exactly one; the dependent rows are deleted before the feed row — in the
intermediate state after the three dependent deletes the feed row is still
present. -/
theorem C6_hardDelete_removes_feed_and_dependents (s : DB) (uid fid : Nat)
    (feed : FeedRow) (user : UserRow)
    (hf : feedFindOne s fid = some feed) (hauthor : feed.userId = uid)
    (hu : userFindOne s uid = some user) :
    ∃ s', hardDeleteFeed s uid fid = some s' ∧
      (∀ im ∈ s'.feedImages, im.feedId ≠ fid) ∧
      (∀ l ∈ s'.feedLikes, l.feedId ≠ fid) ∧
      (∀ b ∈ s'.feedBookmarks, b.feedId ≠ fid) ∧
      feedFindOne s' fid = none ∧
      userFindOne s' uid = some { user with feedCount := user.feedCount - 1 } ∧
      feedFindOne (deleteBookmarksOf (deleteLikesOf (deleteImagesOf s fid) fid) fid) fid
        = some feed := by
  have huid : user.id = uid := userFindOne_id hu
  have hu4 : userFindOne (deleteFeedRow (deleteBookmarksOf (deleteLikesOf
      (deleteImagesOf s fid) fid) fid) fid) uid = some user := hu
  refine ⟨saveUser (deleteFeedRow (deleteBookmarksOf (deleteLikesOf
      (deleteImagesOf s fid) fid) fid) fid) { user with feedCount := user.feedCount - 1 },
    ?_, ?_, ?_, ?_, ?_, ?_, hf⟩
  · simp only [hardDeleteFeed, Option.bind_eq_bind]
    rw [hu4]
    simp only [Option.some_bind, Option.pure_def]
  · intro im him
    simp only [saveUser, deleteFeedRow, deleteBookmarksOf, deleteLikesOf, deleteImagesOf,
      List.mem_filter] at him
    simpa using him.2
  · intro l hl
    simp only [saveUser, deleteFeedRow, deleteBookmarksOf, deleteLikesOf, deleteImagesOf,
      List.mem_filter] at hl
    simpa using hl.2
  · intro b hb
    simp only [saveUser, deleteFeedRow, deleteBookmarksOf, deleteLikesOf, deleteImagesOf,
      List.mem_filter] at hb
    simpa using hb.2
  · simp only [feedFindOne]
    refine List.find?_eq_none.mpr ?_
    intro x hx
    simp only [saveUser, deleteFeedRow, deleteBookmarksOf, deleteLikesOf, deleteImagesOf,
      List.mem_filter] at hx
    simpa using hx.2
  · exact userFindOne_saveUser hu4 (by simpa using huid)

/-- Concrete state for the C6 witness: the feed has one image, one like
and one bookmark row. -/
def c6State : DB :=
  { feeds := [{ id := 1, userId := 1, description := "d", likeCount := 1,
                commentCount := 0, showLikeCountYn := YN.Y, displayYn := YN.Y,
                status := FEED_STATUS.ACTIVE, createdAt := 0, updatedAt := 0 }]
    users := [{ id := 1, feedCount := 1, delYn := YN.N, followingIds := [] }]
    feedImages := [{ feedId := 1, image := "a", sortOrder := 0 }]
    feedLikes := [{ userId := 2, feedId := 1 }]
    feedBookmarks := [{ userId := 2, feedId := 1 }]
    tags := []
    mappers := []
    nextFeedId := 2
    nextTagId := 1 }

/-- The feed row of `c6State`. -/
def c6Feed : FeedRow :=
  { id := 1, userId := 1, description := "d", likeCount := 1,
    commentCount := 0, showLikeCountYn := YN.Y, displayYn := YN.Y,
    status := FEED_STATUS.ACTIVE, createdAt := 0, updatedAt := 0 }

/-- The user row of `c6State`. -/
def c6User : UserRow := { id := 1, feedCount := 1, delYn := YN.N, followingIds := [] }

/-- Witness for C6 at the concrete state. -/
theorem C6_hardDelete_removes_feed_and_dependents_witness :
    ∃ s', hardDeleteFeed c6State 1 1 = some s' ∧
      (∀ im ∈ s'.feedImages, im.feedId ≠ 1) ∧
      (∀ l ∈ s'.feedLikes, l.feedId ≠ 1) ∧
      (∀ b ∈ s'.feedBookmarks, b.feedId ≠ 1) ∧
      feedFindOne s' 1 = none ∧
      userFindOne s' 1 = some { c6User with feedCount := c6User.feedCount - 1 } ∧
      feedFindOne (deleteBookmarksOf (deleteLikesOf (deleteImagesOf c6State 1) 1) 1) 1
        = some c6Feed :=
  C6_hardDelete_removes_feed_and_dependents c6State 1 1 c6Feed c6User
    (by decide) (by decide) (by decide)

-- C4 ------------------------------------------------------------------

lemma length_filterMap_of_isSome {α β : Type} (g : α → Option β) (l : List α)
    (h : ∀ x ∈ l, (g x).isSome = true) : (l.filterMap g).length = l.length := by
  induction l with
  | nil => rfl
  | cons a l ih =>
    cases hg : g a with
    | none => exact absurd (h a (by simp)) (by simp [hg])
    | some b =>
      rw [List.filterMap_cons_some hg]
      simp only [List.length_cons]
      rw [ih (fun x hx => h x (by simp [hx]))]

/-- C4: `findAll` computes `totalCount` as the size of the whole
tag-filtered set, and its page is the slice of that filtered set at
`offset = (page - 1) * limit` of length `limit` (so a page holds
`min limit (totalCount - offset)` items, all drawn from the filtered
set). -/
theorem C4_findAll_filters_before_paginating (s : DB) (ruser : UserRow)
    (dto : FeedListDto) (ex : List Nat) (hpage : 1 ≤ dto.page) :
    (findAll s ruser dto ex).totalCount = (findAllFiltered s dto ex).length ∧
    (findAll s ruser dto ex).items.length =
      min dto.limit ((findAllFiltered s dto ex).length - (dto.page - 1) * dto.limit) ∧
    (∀ vo ∈ (findAll s ruser dto ex).items, vo.feed ∈ findAllFiltered s dto ex) := by
  refine ⟨rfl, ?_, ?_⟩
  · simp only [findAll]
    rw [length_filterMap_of_isSome]
    · simp [List.length_take, List.length_drop]
    · intro f hfmem
      have hfilt : f ∈ findAllFiltered s dto ex :=
        (List.drop_sublist _ _).subset ((List.take_sublist _ _).subset hfmem)
      exact hydrate_isSome (mem_findAllBase (mem_findAllFiltered hfilt)).1
  · intro vo hvo
    simp only [findAll, List.mem_filterMap] at hvo
    obtain ⟨f, hfmem, hhyd⟩ := hvo
    rw [hydrate_some hhyd]
    exact (List.drop_sublist _ _).subset ((List.take_sublist _ _).subset hfmem)

/-- The 25 active visible feeds of the C4 witness state. -/
def c4Feeds : List FeedRow :=
  (List.range 25).map (fun i =>
    { id := i + 1, userId := 1, description := "d", likeCount := 0, commentCount := 0,
      showLikeCountYn := YN.Y, displayYn := YN.Y, status := FEED_STATUS.ACTIVE,
      createdAt := i, updatedAt := i })

/-- The user row of the C4 witness state. -/
def c4User : UserRow := { id := 1, feedCount := 25, delYn := YN.N, followingIds := [] }

/-- Concrete state for the C4 witness: 25 active visible feeds. -/
def c4State : DB :=
  { feeds := c4Feeds
    users := [c4User]
    feedImages := []
    feedLikes := []
    feedBookmarks := []
    tags := []
    mappers := []
    nextFeedId := 26
    nextTagId := 1 }

/-- Page 3 of size 10, as in the spec's pagination example. -/
def c4Dto : FeedListDto := { tagName := none, page := 3, limit := 10 }

-- C2 ------------------------------------------------------------------

lemma nodup_key_inj {α β : Type} [DecidableEq β] (key : α → β) {l : List α}
    (h : (l.map key).Nodup) {x y : α} (hx : x ∈ l) (hy : y ∈ l)
    (hk : key x = key y) : x = y := by
  induction l with
  | nil => simp at hx
  | cons a l ih =>
    simp only [List.map_cons, List.nodup_cons] at h
    rcases List.mem_cons.mp hx with rfl | hx'
    · rcases List.mem_cons.mp hy with rfl | hy'
      · rfl
      · have : key x ∈ l.map key := by rw [hk]; exact List.mem_map_of_mem key hy'
        exact absurd this h.1
    · rcases List.mem_cons.mp hy with rfl | hy'
      · have : key y ∈ l.map key := by rw [← hk]; exact List.mem_map_of_mem key hx'
        exact absurd this h.1
      · exact ih h.2 hx' hy'

lemma find?_append_right {α : Type} (l1 l2 : List α) (p : α → Bool)
    (h : ∀ x ∈ l1, ¬ p x = true) : (l1 ++ l2).find? p = l2.find? p := by
  induction l1 with
  | nil => rfl
  | cons a l1 ih =>
    rw [List.cons_append, List.find?_cons_of_neg _ (h a (by simp))]
    exact ih (fun x hx => h x (by simp [hx]))

lemma tagFindOneByName_mem {s : DB} {tn : String} {t : TagRow}
    (h : tagFindOneByName s tn = some t) : t ∈ s.tags ∧ t.tagName = tn := by
  unfold tagFindOneByName at h
  refine ⟨List.mem_of_find?_eq_some h, ?_⟩
  simpa using List.find?_some h

lemma tagFindOneByName_none {s : DB} {tn : String}
    (h : tagFindOneByName s tn = none) : ∀ t ∈ s.tags, t.tagName ≠ tn := by
  unfold tagFindOneByName at h
  intro t ht
  have := List.find?_eq_none.mp h t ht
  simpa using this

lemma mappedName_insertMapper (s : DB) (fid tid : Nat)
    (hids : (s.tags.map (fun t => t.id)).Nodup)
    (t : TagRow) (ht : t ∈ s.tags) (htid : t.id = tid) :
    ∀ name, MappedName (insertMapper s fid tid) fid name ↔
      (MappedName s fid name ∨ name = t.tagName) := by
  intro name
  unfold MappedName insertMapper
  simp only [List.mem_append, List.mem_singleton]
  constructor
  · rintro ⟨m, hm | hm, hfid, t', ht', hid', hname⟩
    · exact Or.inl ⟨m, hm, hfid, t', ht', hid', hname⟩
    · subst hm
      right
      have hkey : t'.id = t.id := by
        rw [htid]
        exact hid'
      rw [← hname]
      rw [nodup_key_inj (fun t => t.id) hids ht' ht hkey]
  · rintro (⟨m, hm, hfid, t', ht', hid', hname⟩ | rfl)
    · exact ⟨m, Or.inl hm, hfid, t', ht', hid', hname⟩
    · exact ⟨{ feedId := fid, tagId := tid }, Or.inr rfl, rfl, t, ht, htid, rfl⟩

lemma createFeedTagStep_spec (fid : Nat) (s : DB) (tn : String) (hWF : WF s) :
    WF (createFeedTagStep fid s tn) ∧
    (createFeedTagStep fid s tn).feeds = s.feeds ∧
    (createFeedTagStep fid s tn).users = s.users ∧
    (createFeedTagStep fid s tn).feedImages = s.feedImages ∧
    (createFeedTagStep fid s tn).feedLikes = s.feedLikes ∧
    (createFeedTagStep fid s tn).feedBookmarks = s.feedBookmarks ∧
    (∀ t ∈ s.tags, t ∈ (createFeedTagStep fid s tn).tags) ∧
    (∀ name, MappedName (createFeedTagStep fid s tn) fid name ↔
      (MappedName s fid name ∨ name = tn)) := by
  obtain ⟨hids, hnames, hbounds, hres, hpos⟩ := hWF
  cases htag : tagFindOneByName s tn with
  | some t =>
    obtain ⟨htmem, htname⟩ := tagFindOneByName_mem htag
    have hstep : createFeedTagStep fid s tn = insertMapper s fid t.id := by
      unfold createFeedTagStep findOrCreateTag
      rw [htag]
    rw [hstep]
    refine ⟨?_, rfl, rfl, rfl, rfl, rfl, fun t' ht' => ht', ?_⟩
    · refine ⟨hids, hnames, hbounds, ?_, hpos⟩
      intro m hm
      simp only [insertMapper, List.mem_append, List.mem_singleton] at hm
      rcases hm with hm | rfl
      · exact hres m hm
      · exact ⟨t, htmem, rfl⟩
    · intro name
      rw [mappedName_insertMapper s fid t.id hids t htmem rfl name, htname]
  | none =>
    have hstep : createFeedTagStep fid s tn = insertMapper
        { s with
          tags := s.tags ++ [{ id := s.nextTagId, tagName := tn }]
          nextTagId := s.nextTagId + 1 } fid s.nextTagId := by
      unfold createFeedTagStep findOrCreateTag insertTag
      rw [htag]
    rw [hstep]
    simp only [insertMapper]
    refine ⟨?_, trivial, trivial, trivial, trivial, trivial, ?_, ?_⟩
    · refine ⟨?_, ?_, ?_, ?_, Nat.succ_pos _⟩
      · simp only [List.map_append, List.map_cons, List.map_nil, List.nodup_append,
          List.nodup_cons, List.nodup_nil, List.Disjoint]
        refine ⟨hids, ⟨by simp, trivial⟩, ?_⟩
        intro i hi hi'
        simp only [List.mem_cons, List.not_mem_nil, or_false] at hi'
        subst hi'
        obtain ⟨t0, ht0, ht0i⟩ := List.mem_map.mp hi
        exact absurd (ht0i ▸ (hbounds t0 ht0).2) (lt_irrefl _)
      · simp only [List.map_append, List.map_cons, List.map_nil, List.nodup_append,
          List.nodup_cons, List.nodup_nil, List.Disjoint]
        refine ⟨hnames, ⟨by simp, trivial⟩, ?_⟩
        intro nm hnm hnm'
        simp only [List.mem_cons, List.not_mem_nil, or_false] at hnm'
        subst hnm'
        obtain ⟨t0, ht0, ht0n⟩ := List.mem_map.mp hnm
        exact tagFindOneByName_none htag t0 ht0 ht0n
      · intro t ht
        simp only [List.mem_append, List.mem_cons, List.not_mem_nil, or_false] at ht
        rcases ht with ht | rfl
        · exact ⟨(hbounds t ht).1, Nat.lt_succ_of_lt (hbounds t ht).2⟩
        · exact ⟨Nat.pos_iff_ne_zero.mp hpos, Nat.lt_succ_self _⟩
      · intro m hm
        simp only [List.mem_append, List.mem_cons, List.not_mem_nil, or_false] at hm
        rcases hm with hm | rfl
        · obtain ⟨t0, ht0, ht0i⟩ := hres m hm
          exact ⟨t0, by simp [ht0], ht0i⟩
        · exact ⟨{ id := s.nextTagId, tagName := tn }, by simp, rfl⟩
    · intro t ht
      simp [ht]
    · intro name
      unfold MappedName
      simp only [List.mem_append, List.mem_cons, List.not_mem_nil, or_false]
      constructor
      · rintro ⟨m, hm | hm, hfid, t', ht' | ht', hid', hname⟩
        · exact Or.inl ⟨m, hm, hfid, t', ht', hid', hname⟩
        · obtain ⟨t0, ht0, ht0i⟩ := hres m hm
          subst ht'
          rw [← ht0i] at hid'
          exact absurd (hid' ▸ (hbounds t0 ht0).2) (lt_irrefl _)
        · subst hm
          obtain ⟨-, hlt⟩ := hbounds t' ht'
          exact absurd (hid' ▸ hlt) (lt_irrefl _)
        · subst hm
          subst ht'
          exact Or.inr hname.symm
      · rintro (⟨m, hm, hfid, t', ht', hid', hname⟩ | rfl)
        · exact ⟨m, Or.inl hm, hfid, t', Or.inl ht', hid', hname⟩
        · exact ⟨{ feedId := fid, tagId := s.nextTagId }, Or.inr rfl, rfl,
            { id := s.nextTagId, tagName := name }, Or.inr rfl, rfl, rfl⟩

lemma createFeedTagSteps_spec (fid : Nat) (l : List String) (s : DB) (hWF : WF s) :
    WF (l.foldl (createFeedTagStep fid) s) ∧
    (l.foldl (createFeedTagStep fid) s).feeds = s.feeds ∧
    (l.foldl (createFeedTagStep fid) s).users = s.users ∧
    (l.foldl (createFeedTagStep fid) s).feedImages = s.feedImages ∧
    (l.foldl (createFeedTagStep fid) s).feedLikes = s.feedLikes ∧
    (l.foldl (createFeedTagStep fid) s).feedBookmarks = s.feedBookmarks ∧
    (∀ t ∈ s.tags, t ∈ (l.foldl (createFeedTagStep fid) s).tags) ∧
    (∀ name, MappedName (l.foldl (createFeedTagStep fid) s) fid name ↔
      (MappedName s fid name ∨ name ∈ l)) := by
  induction l generalizing s with
  | nil =>
    refine ⟨hWF, rfl, rfl, rfl, rfl, rfl, fun t ht => ht, ?_⟩
    simp
  | cons tn l ih =>
    obtain ⟨hWF1, hfe, hus, him, hlk, hbm, htags, hmap⟩ := createFeedTagStep_spec fid s tn hWF
    obtain ⟨iWF, ife, ius, iim, ilk, ibm, itags, imap⟩ := ih (createFeedTagStep fid s tn) hWF1
    rw [List.foldl_cons]
    refine ⟨iWF, by rw [ife, hfe], by rw [ius, hus], by rw [iim, him],
      by rw [ilk, hlk], by rw [ibm, hbm], fun t ht => itags t (htags t ht), ?_⟩
    intro name
    rw [imap name, hmap name]
    simp only [List.mem_cons]
    tauto

/-- C2: `createFeed` persists a feed row owned by the caller, exactly the
supplied image rows in supplied order, a mapper set whose names are exactly
the (deduplicated) supplied tag-name set — reusing an existing Tag row
rather than creating a duplicate (tag names stay unique, existing Tag rows
are kept) — and increments the author's `feedCount` by exactly one. -/
theorem C2_createFeed_postconditions (s : DB) (userId : Nat) (dto : FeedCreateDto)
    (now : Nat) (user : UserRow)
    (hWF : WF s)
    (hu : userFindOne s userId = some user)
    (hFreshFeed : ∀ f ∈ s.feeds, f.id ≠ s.nextFeedId)
    (hFreshImg : ∀ im ∈ s.feedImages, im.feedId ≠ s.nextFeedId)
    (hFreshMap : ∀ m ∈ s.mappers, m.feedId ≠ s.nextFeedId) :
    ∃ newFeed s', createFeed s userId dto now = some (newFeed, s') ∧
      newFeed.id = s.nextFeedId ∧
      newFeed.userId = userId ∧
      feedFindOne s' newFeed.id = some newFeed ∧
      getFeedImages s' newFeed.id = dto.feedImages.map (fun im =>
        { feedId := newFeed.id, image := im.image, sortOrder := im.sortOrder }) ∧
      (∀ name, MappedName s' newFeed.id name ↔ name ∈ dto.tagNames) ∧
      (s'.tags.map (fun t => t.tagName)).Nodup ∧
      (∀ t ∈ s.tags, t ∈ s'.tags) ∧
      userFindOne s' userId = some { user with feedCount := user.feedCount + 1 } := by
  have huid : user.id = userId := userFindOne_id hu
  have hu2 : userFindOne (insertImages (insertFeed s userId dto now).2
      (insertFeed s userId dto now).1.id dto.feedImages) userId = some user := hu
  have hcomp : createFeed s userId dto now = some ((insertFeed s userId dto now).1,
      dto.tagNames.foldl (createFeedTagStep (insertFeed s userId dto now).1.id)
        (saveUser (insertImages (insertFeed s userId dto now).2
            (insertFeed s userId dto now).1.id dto.feedImages)
          { user with feedCount := user.feedCount + 1 })) := by
    unfold createFeed
    rw [hu2]
    simp only [Option.bind_eq_bind, Option.some_bind, Option.pure_def]
  have hWF3 : WF (saveUser (insertImages (insertFeed s userId dto now).2
      (insertFeed s userId dto now).1.id dto.feedImages)
        { user with feedCount := user.feedCount + 1 }) := hWF
  obtain ⟨fWF, ffe, fus, fim, flk, fbm, ftags, fmap⟩ :=
    createFeedTagSteps_spec (insertFeed s userId dto now).1.id dto.tagNames
      (saveUser (insertImages (insertFeed s userId dto now).2
          (insertFeed s userId dto now).1.id dto.feedImages)
        { user with feedCount := user.feedCount + 1 }) hWF3
  refine ⟨_, _, hcomp, rfl, rfl, ?_, ?_, ?_, fWF.2.1, ?_, ?_⟩
  · unfold feedFindOne
    rw [ffe]
    rw [show (saveUser (insertImages (insertFeed s userId dto now).2
        (insertFeed s userId dto now).1.id dto.feedImages)
          { user with feedCount := user.feedCount + 1 }).feeds
        = s.feeds ++ [(insertFeed s userId dto now).1] from rfl]
    rw [find?_append_right]
    · rw [List.find?_cons_of_pos _ (by simp)]
    · intro f hf
      simpa using hFreshFeed f hf
  · unfold getFeedImages
    rw [fim]
    rw [show (saveUser (insertImages (insertFeed s userId dto now).2
        (insertFeed s userId dto now).1.id dto.feedImages)
          { user with feedCount := user.feedCount + 1 }).feedImages
        = s.feedImages ++ dto.feedImages.map (fun im =>
            { feedId := (insertFeed s userId dto now).1.id, image := im.image,
              sortOrder := im.sortOrder }) from rfl]
    rw [List.filter_append]
    rw [List.filter_eq_nil.mpr (fun im him => by simpa using hFreshImg im him)]
    rw [List.filter_eq_self.mpr ?allmatch]
    · exact List.nil_append _
    case allmatch =>
      intro im him
      obtain ⟨im0, _, rfl⟩ := List.mem_map.mp him
      simp
  · intro name
    rw [fmap name]
    have hbase : ¬ MappedName (saveUser (insertImages (insertFeed s userId dto now).2
        (insertFeed s userId dto now).1.id dto.feedImages)
          { user with feedCount := user.feedCount + 1 })
        (insertFeed s userId dto now).1.id name := by
      rintro ⟨m, hm, hfid, -⟩
      have hm' : m ∈ s.mappers := hm
      exact hFreshMap m hm' hfid
    tauto
  · intro t ht
    exact ftags t ht
  · unfold userFindOne
    rw [fus]
    exact userFindOne_saveUser hu2 (by simpa using huid)

-- C1 ------------------------------------------------------------------

lemma mem_dedupFirst {x : String} {l : List String} : x ∈ dedupFirst l ↔ x ∈ l := by
  induction l with
  | nil => simp [dedupFirst]
  | cons a l ih =>
    simp only [dedupFirst, List.mem_cons, List.mem_filter, ih]
    by_cases hxa : x = a
    · simp [hxa]
    · simp [hxa]

lemma tagFindOneByName_exists {s : DB} {name : String}
    (h : ∃ t ∈ s.tags, t.tagName = name) :
    ∃ dt, tagFindOneByName s name = some dt ∧ dt ∈ s.tags ∧ dt.tagName = name := by
  cases hfind : tagFindOneByName s name with
  | none =>
    obtain ⟨t, ht, htn⟩ := h
    exact absurd htn (tagFindOneByName_none hfind t ht)
  | some dt =>
    obtain ⟨hmem, hname⟩ := tagFindOneByName_mem hfind
    exact ⟨dt, rfl, hmem, hname⟩

lemma addMapperIfAbsent_spec (s : DB) (fid tid : Nat)
    (hids : (s.tags.map (fun t => t.id)).Nodup)
    (t : TagRow) (ht : t ∈ s.tags) (htid : t.id = tid) :
    (addMapperIfAbsent s fid tid).feeds = s.feeds ∧
    (addMapperIfAbsent s fid tid).users = s.users ∧
    (addMapperIfAbsent s fid tid).feedImages = s.feedImages ∧
    (addMapperIfAbsent s fid tid).feedLikes = s.feedLikes ∧
    (addMapperIfAbsent s fid tid).feedBookmarks = s.feedBookmarks ∧
    (addMapperIfAbsent s fid tid).tags = s.tags ∧
    (addMapperIfAbsent s fid tid).nextTagId = s.nextTagId ∧
    (∀ m ∈ (addMapperIfAbsent s fid tid).mappers,
      m ∈ s.mappers ∨ m = { feedId := fid, tagId := tid }) ∧
    (∀ name, MappedName (addMapperIfAbsent s fid tid) fid name ↔
      (MappedName s fid name ∨ name = t.tagName)) := by
  unfold addMapperIfAbsent
  cases hm : mapperFindOne s fid tid with
  | some m0 =>
    have hm0mem : m0 ∈ s.mappers := List.mem_of_find?_eq_some (by simpa [mapperFindOne] using hm)
    have hm0f : s.mappers.find? (fun m =>
        decide (m.feedId = fid) && decide (m.tagId = tid)) = some m0 := by
      simpa [mapperFindOne] using hm
    have hm0p := List.find?_some hm0f
    simp only [Bool.and_eq_true, decide_eq_true_eq] at hm0p
    refine ⟨rfl, rfl, rfl, rfl, rfl, rfl, rfl, fun m hmem => Or.inl hmem, ?_⟩
    intro name
    constructor
    · exact Or.inl
    · rintro (hM | rfl)
      · exact hM
      · exact ⟨m0, hm0mem, hm0p.1, t, ht, by rw [htid, ← hm0p.2], rfl⟩
  | none =>
    refine ⟨rfl, rfl, rfl, rfl, rfl, rfl, rfl, ?_, ?_⟩
    · intro m hmem
      simp only [insertMapper, List.mem_append, List.mem_cons, List.not_mem_nil,
        or_false] at hmem
      exact hmem
    · subst htid
      exact mappedName_insertMapper s fid t.id hids t ht rfl

lemma insertTag_state_WF (s : DB) (tn : String) (hWF : WF s)
    (hnone : tagFindOneByName s tn = none) :
    WF { s with
      tags := s.tags ++ [{ id := s.nextTagId, tagName := tn }]
      nextTagId := s.nextTagId + 1 } := by
  obtain ⟨hids, hnames, hbounds, hres, hpos⟩ := hWF
  refine ⟨?_, ?_, ?_, ?_, Nat.succ_pos _⟩
  · simp only [List.map_append, List.map_cons, List.map_nil, List.nodup_append,
      List.nodup_cons, List.nodup_nil, List.Disjoint]
    refine ⟨hids, ⟨by simp, trivial⟩, ?_⟩
    intro i hi hi'
    simp only [List.mem_cons, List.not_mem_nil, or_false] at hi'
    subst hi'
    obtain ⟨t0, ht0, ht0i⟩ := List.mem_map.mp hi
    exact absurd (ht0i ▸ (hbounds t0 ht0).2) (lt_irrefl _)
  · simp only [List.map_append, List.map_cons, List.map_nil, List.nodup_append,
      List.nodup_cons, List.nodup_nil, List.Disjoint]
    refine ⟨hnames, ⟨by simp, trivial⟩, ?_⟩
    intro nm hnm hnm'
    simp only [List.mem_cons, List.not_mem_nil, or_false] at hnm'
    subst hnm'
    obtain ⟨t0, ht0, ht0n⟩ := List.mem_map.mp hnm
    exact tagFindOneByName_none hnone t0 ht0 ht0n
  · intro t ht
    simp only [List.mem_append, List.mem_cons, List.not_mem_nil, or_false] at ht
    rcases ht with ht | rfl
    · exact ⟨(hbounds t ht).1, Nat.lt_succ_of_lt (hbounds t ht).2⟩
    · exact ⟨Nat.pos_iff_ne_zero.mp hpos, Nat.lt_succ_self _⟩
  · intro m hm
    obtain ⟨t0, ht0, ht0i⟩ := hres m hm
    exact ⟨t0, by simp [ht0], ht0i⟩

lemma insertTag_state_mappedName (s : DB) (tn : String) (hWF : WF s) (fid : Nat) :
    ∀ name, MappedName { s with
        tags := s.tags ++ [{ id := s.nextTagId, tagName := tn }]
        nextTagId := s.nextTagId + 1 } fid name ↔ MappedName s fid name := by
  obtain ⟨hids, hnames, hbounds, hres, hpos⟩ := hWF
  intro name
  unfold MappedName
  constructor
  · rintro ⟨m, hm, hfid, t', ht', hid', hname⟩
    simp only [List.mem_append, List.mem_cons, List.not_mem_nil, or_false] at ht'
    rcases ht' with ht' | rfl
    · exact ⟨m, hm, hfid, t', ht', hid', hname⟩
    · obtain ⟨t0, ht0, ht0i⟩ := hres m hm
      rw [← ht0i] at hid'
      exact absurd (hid' ▸ (hbounds t0 ht0).2) (lt_irrefl _)
  · rintro ⟨m, hm, hfid, t', ht', hid', hname⟩
    exact ⟨m, hm, hfid, t', by simp [ht'], hid', hname⟩

lemma mapM_tags_resolve (s : DB) (l : List MapperFeedTagRow)
    (hids : (s.tags.map (fun t => t.id)).Nodup)
    (hres : ∀ m ∈ l, ∃ t ∈ s.tags, t.id = m.tagId) :
    ∃ rows, (l.map (fun m => tagFindOneById s m.tagId)).mapM id = some rows ∧
      (∀ name, name ∈ rows.map (fun t => t.tagName) ↔
        ∃ m ∈ l, ∃ t ∈ s.tags, t.id = m.tagId ∧ t.tagName = name) := by
  induction l with
  | nil => exact ⟨[], rfl, by simp⟩
  | cons m l ih =>
    obtain ⟨t0, ht0, ht0i⟩ := hres m (by simp)
    cases hfind : tagFindOneById s m.tagId with
    | none =>
      have hfind' : s.tags.find? (fun t => decide (t.id = m.tagId)) = none := by
        simpa [tagFindOneById] using hfind
      have := List.find?_eq_none.mp hfind' t0 ht0
      simp [ht0i] at this
    | some t' =>
      have ht'mem : t' ∈ s.tags :=
        List.mem_of_find?_eq_some (by simpa [tagFindOneById] using hfind)
      have ht'id : t'.id = m.tagId := by
        have hfind' : s.tags.find? (fun t => decide (t.id = m.tagId)) = some t' := by
          simpa [tagFindOneById] using hfind
        simpa using List.find?_some hfind'
      obtain ⟨rows, hrows, hnames⟩ := ih (fun m' hm' => hres m' (by simp [hm']))
      refine ⟨t' :: rows, ?_, ?_⟩
      · simp only [List.map_cons, List.mapM_cons, hfind, hrows, Option.bind_eq_bind,
          Option.some_bind, Option.pure_def, id]
      · intro name
        simp only [List.map_cons, List.mem_cons, hnames]
        constructor
        · rintro (rfl | ⟨m', hm', t'', ht'', hid'', hname''⟩)
          · exact ⟨m, by simp, t', ht'mem, ht'id, rfl⟩
          · exact ⟨m', by simp [hm'], t'', ht'', hid'', hname''⟩
        · rintro ⟨m', hm', t'', ht'', hid'', hname''⟩
          rcases hm' with rfl | hm'
          · left
            have : t'' = t' := nodup_key_inj (fun t => t.id) hids ht'' ht'mem
              (by show t''.id = t'.id; rw [hid'', ht'id])
            rw [← hname'', this]
          · exact Or.inr ⟨m', hm', t'', ht'', hid'', hname''⟩

lemma getFeedTags_mapM (s : DB) (fid : Nat)
    (hids : (s.tags.map (fun t => t.id)).Nodup)
    (hres : ∀ m ∈ s.mappers, ∃ t ∈ s.tags, t.id = m.tagId) :
    ∃ rows, (getFeedTags s fid).mapM id = some rows ∧
      (∀ name, name ∈ rows.map (fun t => t.tagName) ↔ MappedName s fid name) := by
  obtain ⟨rows, hrows, hnames⟩ := mapM_tags_resolve s
    (s.mappers.filter (fun m => decide (m.feedId = fid))) hids
    (fun m hm => hres m (List.mem_of_mem_filter hm))
  refine ⟨rows, hrows, ?_⟩
  intro name
  rw [hnames name]
  unfold MappedName
  constructor
  · rintro ⟨m, hm, t, ht, hid, hname⟩
    have := List.mem_filter.mp hm
    exact ⟨m, this.1, by simpa using this.2, t, ht, hid, hname⟩
  · rintro ⟨m, hm, hfid, t, ht, hid, hname⟩
    exact ⟨m, List.mem_filter.mpr ⟨hm, by simpa using hfid⟩, t, ht, hid, hname⟩

lemma deleteTagsDiff_spec (s : DB) (fid : Nat) (dels : List String) :
    (deleteTagsDiff s fid dels).feeds = s.feeds ∧
    (deleteTagsDiff s fid dels).users = s.users ∧
    (deleteTagsDiff s fid dels).feedImages = s.feedImages ∧
    (deleteTagsDiff s fid dels).feedLikes = s.feedLikes ∧
    (deleteTagsDiff s fid dels).feedBookmarks = s.feedBookmarks ∧
    (deleteTagsDiff s fid dels).tags = s.tags ∧
    (deleteTagsDiff s fid dels).nextTagId = s.nextTagId ∧
    (∀ m, m ∈ (deleteTagsDiff s fid dels).mappers ↔
      (m ∈ s.mappers ∧ ∀ tn ∈ dels, ∀ dt, tagFindOneByName s tn = some dt →
        dt.id ≠ 0 → ¬(m.feedId = fid ∧ m.tagId = dt.id))) := by
  induction dels generalizing s with
  | nil =>
    refine ⟨rfl, rfl, rfl, rfl, rfl, rfl, rfl, ?_⟩
    simp [deleteTagsDiff]
  | cons tn dels ih =>
    have hcons : deleteTagsDiff s fid (tn :: dels) = deleteTagsDiff
        (match tagFindOneByName s tn with
         | some deleteTag =>
             if deleteTag.id ≠ 0 then deleteMapper s fid deleteTag.id else s
         | none => s) fid dels := by
      unfold deleteTagsDiff
      rw [List.foldl_cons]
    rw [hcons]
    cases hdt : tagFindOneByName s tn with
    | none =>
      obtain ⟨i1, i2, i3, i4, i5, i6, i7, imap⟩ := ih s
      refine ⟨i1, i2, i3, i4, i5, i6, i7, ?_⟩
      intro m
      rw [imap m]
      constructor
      · rintro ⟨hm, hC⟩
        refine ⟨hm, ?_⟩
        intro tn' htn' dt hdt' hdtid
        rcases List.mem_cons.mp htn' with rfl | htn'
        · rw [hdt] at hdt'
          exact absurd hdt' (by simp)
        · exact hC tn' htn' dt hdt' hdtid
      · rintro ⟨hm, hC⟩
        exact ⟨hm, fun tn' htn' dt hdt' hdtid => hC tn' (by simp [htn']) dt hdt' hdtid⟩
    | some dt0 =>
      by_cases hdt0 : dt0.id ≠ 0
      · simp only [if_pos hdt0]
        obtain ⟨i1, i2, i3, i4, i5, i6, i7, imap⟩ := ih (deleteMapper s fid dt0.id)
        have htagseq : ∀ x, tagFindOneByName (deleteMapper s fid dt0.id) x
            = tagFindOneByName s x := fun x => rfl
        refine ⟨i1, i2, i3, i4, i5, i6, i7, ?_⟩
        intro m
        rw [imap m]
        simp only [htagseq, deleteMapper, List.mem_filter, Bool.not_eq_eq_eq_not,
          Bool.not_true, Bool.and_eq_false_iff, decide_eq_false_iff_not]
        constructor
        · rintro ⟨⟨hm, hnot⟩, hC⟩
          refine ⟨hm, ?_⟩
          intro tn' htn' dt hdt' hdtid
          rcases List.mem_cons.mp htn' with rfl | htn'
          · rw [hdt] at hdt'
            injection hdt' with hdt'
            subst hdt'
            rintro ⟨hmf, hmt⟩
            rcases hnot with h | h
            · exact h hmf
            · exact h hmt
          · exact hC tn' htn' dt hdt' hdtid
        · rintro ⟨hm, hC⟩
          have hhead := hC tn (by simp) dt0 hdt hdt0
          refine ⟨⟨hm, ?_⟩, ?_⟩
          · by_cases hmf : m.feedId = fid
            · right
              intro hmt
              exact hhead ⟨hmf, hmt⟩
            · exact Or.inl hmf
          · intro tn' htn' dt hdt' hdtid
            exact hC tn' (by simp [htn']) dt hdt' hdtid
      · simp only [if_neg hdt0]
        obtain ⟨i1, i2, i3, i4, i5, i6, i7, imap⟩ := ih s
        refine ⟨i1, i2, i3, i4, i5, i6, i7, ?_⟩
        intro m
        rw [imap m]
        constructor
        · rintro ⟨hm, hC⟩
          refine ⟨hm, ?_⟩
          intro tn' htn' dt hdt' hdtid
          rcases List.mem_cons.mp htn' with rfl | htn'
          · rw [hdt] at hdt'
            injection hdt' with hdt'
            subst hdt'
            exact absurd hdtid hdt0
          · exact hC tn' htn' dt hdt' hdtid
        · rintro ⟨hm, hC⟩
          exact ⟨hm, fun tn' htn' dt hdt' hdtid => hC tn' (by simp [htn']) dt hdt' hdtid⟩

lemma updateFeedTagLoopBody_spec (fid : Nat) (supplied : List String) (s2 : DB)
    (hWF2 : WF s2) (feed : FeedRow) (hf2 : feedFindOne s2 fid = some feed)
    (owner : UserRow) (ho2 : userFindOne s2 feed.userId = some owner) :
    ∃ s', updateFeedTagLoopBody fid supplied s2 = some s' ∧ WF s' ∧
      s'.feeds = s2.feeds ∧ s'.users = s2.users ∧ s'.feedImages = s2.feedImages ∧
      s'.feedLikes = s2.feedLikes ∧ s'.feedBookmarks = s2.feedBookmarks ∧
      s'.tags = s2.tags ∧ s'.nextTagId = s2.nextTagId ∧
      (∀ name, MappedName s' fid name ↔ (MappedName s2 fid name ∧ name ∈ supplied)) := by
  obtain ⟨hids2, hnames2, hbounds2, hres2, hpos2⟩ := hWF2
  obtain ⟨rows, hrows, hrnames⟩ := getFeedTags_mapM s2 fid hids2 hres2
  have hdels : ∀ x, x ∈ (dedupFirst (rows.map (fun t => t.tagName))).filter
      (fun tn => !(decide (tn ∈ supplied))) ↔
      (MappedName s2 fid x ∧ ¬ x ∈ supplied) := by
    intro x
    rw [List.mem_filter]
    simp only [mem_dedupFirst, Bool.not_eq_eq_eq_not, Bool.not_true,
      decide_eq_false_iff_not]
    rw [hrnames x]
  obtain ⟨d1, d2, d3, d4, d5, d6, d7, dmap⟩ := deleteTagsDiff_spec s2 fid
    ((dedupFirst (rows.map (fun t => t.tagName))).filter
      (fun tn => !(decide (tn ∈ supplied))))
  refine ⟨deleteTagsDiff s2 fid ((dedupFirst (rows.map (fun t => t.tagName))).filter
      (fun tn => !(decide (tn ∈ supplied)))), ?_, ?_, d1, d2, d3, d4, d5, d6, d7, ?_⟩
  · unfold updateFeedTagLoopBody
    rw [findOneFeed_eq hf2 ho2]
    simp only [Option.bind_eq_bind, Option.some_bind]
    rw [show (processFeedItem s2 feed owner none).tags = getFeedTags s2 feed.id from rfl,
      feedFindOne_id hf2, hrows]
    simp only [Option.some_bind, Option.pure_def]
  · refine ⟨by rw [d6]; exact hids2, by rw [d6]; exact hnames2, ?_, ?_,
      by rw [d7]; exact hpos2⟩
    · intro t ht
      rw [d6] at ht
      rw [d7]
      exact hbounds2 t ht
    · intro m hm
      obtain ⟨hm2, -⟩ := (dmap m).mp hm
      obtain ⟨t, ht, hti⟩ := hres2 m hm2
      exact ⟨t, by rw [d6]; exact ht, hti⟩
  · intro name
    constructor
    · rintro ⟨m, hm, hfid, t', ht', hid', hname⟩
      rw [d6] at ht'
      obtain ⟨hm2, hC⟩ := (dmap m).mp hm
      have hM2 : MappedName s2 fid name := ⟨m, hm2, hfid, t', ht', hid', hname⟩
      refine ⟨hM2, ?_⟩
      by_contra hnsup
      have hdel := (hdels name).mpr ⟨hM2, hnsup⟩
      obtain ⟨dt, hdt, hdtmem, hdtname⟩ := tagFindOneByName_exists ⟨t', ht', hname⟩
      have hnot := hC name hdel dt hdt (hbounds2 dt hdtmem).1
      apply hnot
      have hteq : t' = dt := nodup_key_inj (fun t => t.tagName) hnames2 ht' hdtmem
        (by show t'.tagName = dt.tagName; rw [hname, hdtname])
      refine ⟨hfid, ?_⟩
      rw [← hid', hteq]
    · rintro ⟨⟨m, hm2, hfid, t', ht', hid', hname⟩, hsupn⟩
      refine ⟨m, (dmap m).mpr ⟨hm2, ?_⟩, hfid, t', by rw [d6]; exact ht', hid', hname⟩
      rintro tn' htn' dt hdt hdtid ⟨hmf, hmt⟩
      obtain ⟨hM2tn', hnsup⟩ := (hdels tn').mp htn'
      obtain ⟨hdtmem, hdtname⟩ := tagFindOneByName_mem hdt
      apply hnsup
      have heq : tn' = name := by
        rw [← hdtname, ← nodup_key_inj (fun t => t.id) hids2 ht' hdtmem
          (by show t'.id = dt.id; rw [hid', hmt]), hname]
      rw [heq]
      exact hsupn

lemma updateFeedTagStep_spec (fid : Nat) (supplied : List String) (s : DB) (tn : String)
    (hWF : WF s)
    (feed : FeedRow) (hf : feedFindOne s fid = some feed)
    (owner : UserRow) (ho : userFindOne s feed.userId = some owner) :
    ∃ s', updateFeedTagStep fid supplied (some s) tn = some s' ∧ WF s' ∧
      s'.feeds = s.feeds ∧ s'.users = s.users ∧
      (∀ t ∈ s.tags, t ∈ s'.tags) ∧
      (∀ name, (∃ t ∈ s'.tags, t.tagName = name) ↔
        ((∃ t ∈ s.tags, t.tagName = name) ∨ name = tn)) ∧
      (∀ name, MappedName s' fid name ↔
        ((MappedName s fid name ∨ name = tn) ∧ name ∈ supplied)) := by
  cases htag : tagFindOneByName s tn with
  | some t =>
    obtain ⟨htmem, htname⟩ := tagFindOneByName_mem htag
    have hfoc : findOrCreateTag s tn = (t, s) := by
      unfold findOrCreateTag
      rw [htag]
    have hstep : updateFeedTagStep fid supplied (some s) tn
        = updateFeedTagLoopBody fid supplied (addMapperIfAbsent s fid t.id) := by
      unfold updateFeedTagStep
      simp only [Option.bind_eq_bind, Option.some_bind, hfoc]
    obtain ⟨a1, a2, a3, a4, a5, a6, a7, asub, amap⟩ :=
      addMapperIfAbsent_spec s fid t.id hWF.1 t htmem rfl
    have hWF2 : WF (addMapperIfAbsent s fid t.id) := by
      obtain ⟨hids, hnames, hbounds, hres, hpos⟩ := hWF
      refine ⟨by rw [a6]; exact hids, by rw [a6]; exact hnames, ?_, ?_,
        by rw [a7]; exact hpos⟩
      · intro t' ht'
        rw [a6] at ht'
        rw [a7]
        exact hbounds t' ht'
      · intro m hm
        rcases asub m hm with hm' | rfl
        · obtain ⟨t0, ht0, ht0i⟩ := hres m hm'
          exact ⟨t0, by rw [a6]; exact ht0, ht0i⟩
        · exact ⟨t, by rw [a6]; exact htmem, rfl⟩
    have hf2 : feedFindOne (addMapperIfAbsent s fid t.id) fid = some feed := by
      unfold feedFindOne at hf ⊢
      rw [a1]
      exact hf
    have ho2 : userFindOne (addMapperIfAbsent s fid t.id) feed.userId = some owner := by
      unfold userFindOne at ho ⊢
      rw [a2]
      exact ho
    obtain ⟨s', hbody, hWF', b1, b2, b3, b4, b5, b6, b7, bmap⟩ :=
      updateFeedTagLoopBody_spec fid supplied (addMapperIfAbsent s fid t.id) hWF2
        feed hf2 owner ho2
    refine ⟨s', by rw [hstep]; exact hbody, hWF', by rw [b1, a1], by rw [b2, a2],
      ?_, ?_, ?_⟩
    · intro t' ht'
      rw [b6, a6]
      exact ht'
    · intro name
      rw [b6, a6]
      constructor
      · exact Or.inl
      · rintro (h | rfl)
        · exact h
        · exact ⟨t, htmem, htname⟩
    · intro name
      rw [bmap name, amap name, htname]
  | none =>
    have hfoc : findOrCreateTag s tn = ({ id := s.nextTagId, tagName := tn },
        { s with
          tags := s.tags ++ [{ id := s.nextTagId, tagName := tn }]
          nextTagId := s.nextTagId + 1 }) := by
      unfold findOrCreateTag insertTag
      rw [htag]
    have hWF1 := insertTag_state_WF s tn hWF htag
    have htNew : ({ id := s.nextTagId, tagName := tn } : TagRow) ∈
        ({ s with
          tags := s.tags ++ [{ id := s.nextTagId, tagName := tn }]
          nextTagId := s.nextTagId + 1 } : DB).tags := by simp
    have hf1 : feedFindOne { s with
        tags := s.tags ++ [{ id := s.nextTagId, tagName := tn }]
        nextTagId := s.nextTagId + 1 } fid = some feed := hf
    have ho1 : userFindOne { s with
        tags := s.tags ++ [{ id := s.nextTagId, tagName := tn }]
        nextTagId := s.nextTagId + 1 } feed.userId = some owner := ho
    have hstep : updateFeedTagStep fid supplied (some s) tn
        = updateFeedTagLoopBody fid supplied (addMapperIfAbsent
          { s with
            tags := s.tags ++ [{ id := s.nextTagId, tagName := tn }]
            nextTagId := s.nextTagId + 1 } fid s.nextTagId) := by
      unfold updateFeedTagStep
      simp only [Option.bind_eq_bind, Option.some_bind, hfoc]
    obtain ⟨a1, a2, a3, a4, a5, a6, a7, asub, amap⟩ :=
      addMapperIfAbsent_spec { s with
          tags := s.tags ++ [{ id := s.nextTagId, tagName := tn }]
          nextTagId := s.nextTagId + 1 } fid s.nextTagId hWF1.1
        { id := s.nextTagId, tagName := tn } htNew rfl
    have hWF2 : WF (addMapperIfAbsent { s with
        tags := s.tags ++ [{ id := s.nextTagId, tagName := tn }]
        nextTagId := s.nextTagId + 1 } fid s.nextTagId) := by
      obtain ⟨hids, hnames, hbounds, hres, hpos⟩ := hWF1
      refine ⟨by rw [a6]; exact hids, by rw [a6]; exact hnames, ?_, ?_,
        by rw [a7]; exact hpos⟩
      · intro t' ht'
        rw [a6] at ht'
        rw [a7]
        exact hbounds t' ht'
      · intro m hm
        rcases asub m hm with hm' | rfl
        · obtain ⟨t0, ht0, ht0i⟩ := hres m hm'
          exact ⟨t0, by rw [a6]; exact ht0, ht0i⟩
        · exact ⟨{ id := s.nextTagId, tagName := tn }, by rw [a6]; exact htNew, rfl⟩
    have hf2 : feedFindOne (addMapperIfAbsent { s with
        tags := s.tags ++ [{ id := s.nextTagId, tagName := tn }]
        nextTagId := s.nextTagId + 1 } fid s.nextTagId) fid = some feed := by
      unfold feedFindOne at hf1 ⊢
      rw [a1]
      exact hf1
    have ho2 : userFindOne (addMapperIfAbsent { s with
        tags := s.tags ++ [{ id := s.nextTagId, tagName := tn }]
        nextTagId := s.nextTagId + 1 } fid s.nextTagId) feed.userId = some owner := by
      unfold userFindOne at ho1 ⊢
      rw [a2]
      exact ho1
    obtain ⟨s', hbody, hWF', b1, b2, b3, b4, b5, b6, b7, bmap⟩ :=
      updateFeedTagLoopBody_spec fid supplied (addMapperIfAbsent { s with
          tags := s.tags ++ [{ id := s.nextTagId, tagName := tn }]
          nextTagId := s.nextTagId + 1 } fid s.nextTagId) hWF2 feed hf2 owner ho2
    refine ⟨s', by rw [hstep]; exact hbody, hWF', by rw [b1, a1], by rw [b2, a2],
      ?_, ?_, ?_⟩
    · intro t' ht'
      rw [b6, a6]
      exact List.mem_append_left _ ht'
    · intro name
      rw [b6, a6]
      constructor
      · rintro ⟨t', ht', hn⟩
        have ht'' : t' ∈ s.tags ++ [{ id := s.nextTagId, tagName := tn }] := ht'
        rcases List.mem_append.mp ht'' with h | h
        · exact Or.inl ⟨t', h, hn⟩
        · simp only [List.mem_cons, List.not_mem_nil, or_false] at h
          subst h
          exact Or.inr hn.symm
      · rintro (⟨t', ht', hn⟩ | rfl)
        · exact ⟨t', List.mem_append_left _ ht', hn⟩
        · exact ⟨{ id := s.nextTagId, tagName := name },
            List.mem_append_right _ (by simp), rfl⟩
    · intro name
      rw [bmap name, amap name,
        show ({ id := s.nextTagId, tagName := tn } : TagRow).tagName = tn from rfl,
        insertTag_state_mappedName s tn hWF fid name]

lemma updateFeedTagSteps_spec (fid : Nat) (supplied : List String) (l : List String)
    (s : DB) (hWF : WF s)
    (feed : FeedRow) (hf : feedFindOne s fid = some feed)
    (owner : UserRow) (ho : userFindOne s feed.userId = some owner) :
    ∃ s', l.foldl (updateFeedTagStep fid supplied) (some s) = some s' ∧ WF s' ∧
      s'.feeds = s.feeds ∧ s'.users = s.users ∧
      (∀ t ∈ s.tags, t ∈ s'.tags) ∧
      (∀ name, (∃ t ∈ s'.tags, t.tagName = name) ↔
        ((∃ t ∈ s.tags, t.tagName = name) ∨ name ∈ l)) ∧
      (∀ name, MappedName s' fid name ↔
        (if l = [] then MappedName s fid name
         else (MappedName s fid name ∨ name ∈ l) ∧ name ∈ supplied)) := by
  induction l generalizing s with
  | nil =>
    refine ⟨s, rfl, hWF, rfl, rfl, fun t ht => ht, by simp, by simp⟩
  | cons tn l ih =>
    obtain ⟨s1, hstep, hWF1, hfe1, hus1, hgrow1, hex1, hmap1⟩ :=
      updateFeedTagStep_spec fid supplied s tn hWF feed hf owner ho
    have hf1 : feedFindOne s1 fid = some feed := by
      unfold feedFindOne at hf ⊢
      rw [hfe1]
      exact hf
    have ho1 : userFindOne s1 feed.userId = some owner := by
      unfold userFindOne at ho ⊢
      rw [hus1]
      exact ho
    obtain ⟨s', hfold, hWF', hfe', hus', hgrow', hex', hmap'⟩ :=
      ih s1 hWF1 hf1 ho1
    refine ⟨s', ?_, hWF', by rw [hfe', hfe1], by rw [hus', hus1],
      fun t ht => hgrow' t (hgrow1 t ht), ?_, ?_⟩
    · rw [List.foldl_cons, hstep]
      exact hfold
    · intro name
      rw [hex' name, hex1 name]
      simp only [List.mem_cons]
      exact or_assoc
    · intro name
      rw [hmap' name]
      by_cases hl : l = []
      · subst hl
        simp only [if_pos rfl, if_neg (List.cons_ne_nil tn [])]
        rw [hmap1 name]
        simp only [List.mem_cons, List.not_mem_nil, or_false, if_true]
      · rw [if_neg hl, if_neg (List.cons_ne_nil tn l), hmap1 name]
        simp only [List.mem_cons]
        constructor
        · rintro ⟨⟨hM, hsup⟩ | hl', hsup'⟩
          · exact ⟨hM.imp_right Or.inl, hsup'⟩
          · exact ⟨Or.inr (Or.inr hl'), hsup'⟩
        · rintro ⟨hM | rfl | hl', hsup'⟩
          · exact ⟨Or.inl ⟨Or.inl hM, hsup'⟩, hsup'⟩
          · exact ⟨Or.inl ⟨Or.inr rfl, hsup'⟩, hsup'⟩
          · exact ⟨Or.inr hl', hsup'⟩

/-- C1: `updateFeed`'s transaction reconciles the feed's mapper rows to
exactly the supplied tag-name set — an empty list deletes all mapper rows,
a missing Tag row is created, a previously mapped name absent from the
supplied set loses its mapper row, and Tag rows are never deleted. -/
theorem C1_updateFeed_reconciles_tag_set (s : DB) (fid : Nat) (dto : FeedUpdateDto)
    (now : Nat) (feed : FeedRow) (owner : UserRow)
    (hWF : WF s)
    (hf : feedFindOne s fid = some feed)
    (ho : userFindOne s feed.userId = some owner) :
    ∃ s', updateFeed s fid dto now =
        some ({ feed with description := dto.description, updatedAt := now }, s') ∧
      (∀ name, MappedName s' fid name ↔ name ∈ dto.tagNames) ∧
      (∀ t ∈ s.tags, t ∈ s'.tags) ∧
      (∀ name ∈ dto.tagNames, ∃ t ∈ s'.tags, t.tagName = name) := by
  by_cases hlen : dto.tagNames.length = 0
  · have hnil : dto.tagNames = [] := List.length_eq_zero.mp hlen
    have htags : updateFeedTags s fid dto.tagNames = some (deleteMappersOf s fid) := by
      unfold updateFeedTags
      rw [if_pos hlen]
    refine ⟨saveFeed (deleteMappersOf s fid)
        { feed with description := dto.description, updatedAt := now }, ?_, ?_, ?_, ?_⟩
    · unfold updateFeed
      rw [hf, htags]
      simp only [Option.bind_eq_bind, Option.some_bind, Option.pure_def]
    · intro name
      rw [hnil]
      simp only [List.not_mem_nil, iff_false]
      rintro ⟨m, hm, hfid, -⟩
      have hm' : m ∈ s.mappers.filter (fun m => !(decide (m.feedId = fid))) := hm
      have := (List.mem_filter.mp hm').2
      simp [hfid] at this
    · intro t ht
      exact ht
    · intro name hname
      rw [hnil] at hname
      simp at hname
  · obtain ⟨s2, hfold, hWF2, hfe2, hus2, hgrow2, hex2, hmap2⟩ :=
      updateFeedTagSteps_spec fid dto.tagNames dto.tagNames s hWF feed hf owner ho
    have htags : updateFeedTags s fid dto.tagNames = some s2 := by
      unfold updateFeedTags
      rw [if_neg hlen]
      exact hfold
    have hne : dto.tagNames ≠ [] := by
      intro hc
      rw [hc] at hlen
      exact hlen rfl
    refine ⟨saveFeed s2 { feed with description := dto.description, updatedAt := now },
      ?_, ?_, ?_, ?_⟩
    · unfold updateFeed
      rw [hf, htags]
      simp only [Option.bind_eq_bind, Option.some_bind, Option.pure_def]
    · intro name
      have h := hmap2 name
      rw [if_neg hne] at h
      constructor
      · intro hM
        exact (h.mp hM).2
      · intro hname
        exact h.mpr ⟨Or.inr hname, hname⟩
    · intro t ht
      exact hgrow2 t ht
    · intro name hname
      exact (hex2 name).mpr (Or.inr hname)

/-- The feed row of the C1 witness state. -/
def c1Feed : FeedRow :=
  { id := 1, userId := 1, description := "d", likeCount := 0,
    commentCount := 0, showLikeCountYn := YN.Y, displayYn := YN.Y,
    status := FEED_STATUS.ACTIVE, createdAt := 0, updatedAt := 0 }

/-- The user row of the C1 witness state. -/
def c1User : UserRow := { id := 1, feedCount := 1, delYn := YN.N, followingIds := [] }

/-- Concrete state for the C1 witness: the feed is mapped to tags A, B, C
(the spec's update-reconciliation example). -/
def c1State : DB :=
  { feeds := [c1Feed]
    users := [c1User]
    feedImages := []
    feedLikes := []
    feedBookmarks := []
    tags := [{ id := 1, tagName := "A" }, { id := 2, tagName := "B" },
             { id := 3, tagName := "C" }]
    mappers := [{ feedId := 1, tagId := 1 }, { feedId := 1, tagId := 2 },
                { feedId := 1, tagId := 3 }]
    nextFeedId := 2
    nextTagId := 4 }

/-- Update request of the C1 witness: reconcile the tag set to B, C, D. -/
def c1Dto : FeedUpdateDto := { description := "d2", tagNames := ["B", "C", "D"] }

/-- Witness for C1 at the spec's example: {A,B,C} updated to {B,C,D}. -/
theorem C1_updateFeed_reconciles_tag_set_witness :
    ∃ s', updateFeed c1State 1 c1Dto 9 =
        some ({ c1Feed with description := c1Dto.description, updatedAt := 9 }, s') ∧
      (∀ name, MappedName s' 1 name ↔ name ∈ c1Dto.tagNames) ∧
      (∀ t ∈ c1State.tags, t ∈ s'.tags) ∧
      (∀ name ∈ c1Dto.tagNames, ∃ t ∈ s'.tags, t.tagName = name) :=
  C1_updateFeed_reconciles_tag_set c1State 1 c1Dto 9 c1Feed c1User
    (by decide) (by decide) (by decide)

/-- The author row of the C2 witness state. -/
def c2User : UserRow := { id := 7, feedCount := 0, delYn := YN.N, followingIds := [] }

/-- Concrete state for the C2 witness: one pre-existing tag named `a`. -/
def c2State : DB :=
  { feeds := []
    users := [c2User]
    feedImages := []
    feedLikes := []
    feedBookmarks := []
    tags := [{ id := 1, tagName := "a" }]
    mappers := []
    nextFeedId := 1
    nextTagId := 2 }

/-- Creation request of the C2 witness: two images and the tag list
`[a, b, a]` (a duplicate plus a pre-existing name). -/
def c2Dto : FeedCreateDto :=
  { description := "hello"
    feedImages := [{ image := "i1", sortOrder := 2 }, { image := "i2", sortOrder := 1 }]
    tagNames := ["a", "b", "a"] }

/-- Witness for C2 at the concrete state. -/
theorem C2_createFeed_postconditions_witness :
    ∃ newFeed s', createFeed c2State 7 c2Dto 5 = some (newFeed, s') ∧
      newFeed.id = c2State.nextFeedId ∧
      newFeed.userId = 7 ∧
      feedFindOne s' newFeed.id = some newFeed ∧
      getFeedImages s' newFeed.id = c2Dto.feedImages.map (fun im =>
        { feedId := newFeed.id, image := im.image, sortOrder := im.sortOrder }) ∧
      (∀ name, MappedName s' newFeed.id name ↔ name ∈ c2Dto.tagNames) ∧
      (s'.tags.map (fun t => t.tagName)).Nodup ∧
      (∀ t ∈ c2State.tags, t ∈ s'.tags) ∧
      userFindOne s' 7 = some { c2User with feedCount := c2User.feedCount + 1 } :=
  C2_createFeed_postconditions c2State 7 c2Dto 5 c2User (by decide) (by decide)
    (by decide) (by decide) (by decide)

/-- Witness for C4: with 25 active visible feeds and `limit = 10`, page 3
holds 5 items and `totalCount` is 25. -/
theorem C4_findAll_filters_before_paginating_witness :
    ((findAll c4State c4User c4Dto []).totalCount
        = (findAllFiltered c4State c4Dto []).length ∧
      (findAll c4State c4User c4Dto []).items.length =
        min c4Dto.limit
          ((findAllFiltered c4State c4Dto []).length - (c4Dto.page - 1) * c4Dto.limit) ∧
      (∀ vo ∈ (findAll c4State c4User c4Dto []).items,
        vo.feed ∈ findAllFiltered c4State c4Dto [])) ∧
    (findAll c4State c4User c4Dto []).totalCount = 25 ∧
    (findAll c4State c4User c4Dto []).items.length = 5 :=
  ⟨C4_findAll_filters_before_paginating c4State c4User c4Dto [] (by decide),
    by decide, by decide⟩

end SnsFeed
